import Mathlib

/-!
Shallow embedding of the avtofamily backend core (vehicle catalog back office):
the image normalisation pipeline (`inventory/services/image_processing.py`),
the Car record state manager (`Car.save` in `inventory/models.py`), the
CarImage save pipeline with the single-primary-image invariant
(`CarImage.save`), and the serializer cross-reference validation
(`CarSerializer.validate` in `inventory/api/serializers.py`).

Machine conventions of the embedding:

* timestamps (`timezone.now()`) are modelled as abstract `Nat` instants
  supplied by the caller of each save;
* image payload bytes are modelled by their decoded view: `Option PILImage`,
  where `none` stands for bytes the codec cannot decode;
* PIL float arithmetic inside `Image.thumbnail` is modelled by exact rational
  comparison (cross-multiplied naturals);
* Django's `slugify` is modelled for ASCII strings (the NFKD-and-drop
  transliteration step is modelled as dropping non-ASCII code points);
* the database is an association list of rows; Django's documented
  `update_fields` semantics (only the named columns are written, an empty
  iterable skips the save, an update matching no row raises) is modelled
  explicitly.
-/

namespace Avtofamily


/-! ## Django slugify (django.utils.text.slugify, ASCII fragment) -/

/-- Character class of the regex `\w` for ASCII text: `[a-zA-Z0-9_]`. -/
def isWordChar (c : Char) : Bool :=
  (('a' ≤ c ∧ c ≤ 'z') ∨ ('A' ≤ c ∧ c ≤ 'Z') ∨ ('0' ≤ c ∧ c ≤ '9') ∨ c = '_')

/-- Character class of the regex `\s` for ASCII text. -/
def isSpaceChar (c : Char) : Bool :=
  (c = ' ' ∨ c = '\t' ∨ c = '\n' ∨ c = '\x0d' ∨ c = '\x0b' ∨ c = '\x0c')

/-- Characters collapsed by the final `re.sub(r"[-\s]+", "-", value)`. -/
def isDashOrSpace (c : Char) : Bool :=
  c = '-' ∨ isSpaceChar c

/-- Replace every maximal run of dash/whitespace characters by a single
hyphen.  The boolean argument records whether the previous character was
part of such a run. -/
def collapseAux : Bool → List Char → List Char
  | _, [] => []
  | prevRun, c :: cs =>
    if isDashOrSpace c then
      if prevRun then collapseAux true cs
      else '-' :: collapseAux true cs
    else c :: collapseAux false cs

/-- Strip leading and trailing `-` and `_` (Python `str.strip("-_")`). -/
def stripDashUnderscore (l : List Char) : List Char :=
  ((l.dropWhile fun c => c = '-' ∨ c = '_').reverse.dropWhile
    fun c => c = '-' ∨ c = '_').reverse

/-- `django.utils.text.slugify` restricted to ASCII input: drop non-ASCII
code points (modelling NFKD normalisation followed by an ASCII encode with
`errors="ignore"`), lowercase, delete characters outside `[\w\s-]`, collapse
runs of hyphens/whitespace to one hyphen, and strip `-`/`_` from both ends. -/
def djangoSlugify (s : String) : String :=
  let cs := s.data.filter fun c => c.toNat < 128
  let cs := cs.map Char.toLower
  let cs := cs.filter fun c => isWordChar c ∨ isSpaceChar c ∨ c = '-'
  String.mk (stripDashUnderscore (collapseAux false cs))

/-! ## PIL image model and `Image.thumbnail` -/

/-- Decoded raster image as the pipeline observes it: pixel-buffer
dimensions, colour mode, container format and the EXIF orientation tag
(1 = upright / absent). -/
structure PILImage where
  width : Nat
  height : Nat
  mode : String
  format : Option String
  exifOrientation : Nat
deriving DecidableEq, Repr

/-- `ImageOps.exif_transpose`: present the pixel buffer upright and drop the
orientation tag.  Orientations 5–8 involve a 90° rotation and therefore swap
the two dimensions; 1–4 keep them. -/
def exifTranspose (img : PILImage) : PILImage :=
  let swapped :=
    img.exifOrientation = 5 ∨ img.exifOrientation = 6 ∨
      img.exifOrientation = 7 ∨ img.exifOrientation = 8
  { img with
    width := if swapped then img.height else img.width
    height := if swapped then img.width else img.height
    exifOrientation := 1 }

/-- `PIL.Image.thumbnail((mx, my))` dimension computation.  A no-op when the
image already fits in the requested box; otherwise the constrained dimension
is pinned to the box and the other is the aspect-preserving value rounded to
whichever of floor/ceiling best matches the aspect ratio (floor on ties,
clamped to at least 1), exactly as `Image.thumbnail`'s `round_aspect`
helper computes it. -/
def pilThumbnail (w h mx my : Nat) : Nat × Nat :=
  if w ≤ mx ∧ h ≤ my then (w, h)
  else if w * my ≤ mx * h then
    let f := my * w / h
    let c := (my * w + h - 1) / h
    let x := if Nat.dist (f * h) (my * w) ≤ Nat.dist (c * h) (my * w) then f else c
    (max x 1, my)
  else
    let f := mx * h / w
    let c := (mx * h + w - 1) / w
    let y :=
      if f = 0 then f
      else if Nat.dist (w * f) (mx * h) * c ≤ Nat.dist (w * c) (mx * h) * f then f
      else c
    (mx, max y 1)

/-! ## optimise_car_image (inventory/services/image_processing.py) -/

/-- Last path component of a file name (`pathlib.PurePath.name`). -/
def lastComponent (s : String) : List Char :=
  (s.data.reverse.takeWhile fun c => c ≠ '/').reverse

/-- `pathlib.PurePath(...).stem`: the final component with its suffix
removed; the suffix is the part after the last dot provided that dot is
neither the first nor the last character of the component. -/
def pathStem (s : String) : String :=
  let base := lastComponent s
  let suffLen := (base.reverse.takeWhile fun c => c ≠ '.').length
  let i := base.length - 1 - suffLen
  if ('.' ∈ base) ∧ 0 < i ∧ i < base.length - 1 then String.mk (base.take i)
  else String.mk base

/-- Typed error raised when the codec cannot decode uploaded bytes
(spec name `UnsupportedImageFormat`). -/
inductive ImgError where
  | unsupportedImageFormat
deriving DecidableEq, Repr

/-- The longest edge permitted by `MAX_IMAGE_SIZE = (2560, 2560)`. -/
def MAX_IMAGE_EDGE : Nat := 2560

/-- `optimise_car_image(file_obj)`: decode (failing with
`UnsupportedImageFormat` on undecodable bytes), apply the EXIF orientation
and drop the tag, convert any mode other than RGB/L to RGB, bound both
dimensions by 2560 via `Image.thumbnail`, and re-encode as JPEG under the
original base name with a `.jpg` extension.  The uploaded payload is the
pair of the file name and its decoded view (`none` when undecodable). -/
def optimise_car_image (name : String) (content : Option PILImage) :
    Except ImgError (String × PILImage) :=
  match content with
  | none => .error .unsupportedImageFormat
  | some decoded =>
    let upright := exifTranspose decoded
    let converted :=
      if upright.mode = "RGB" ∨ upright.mode = "L" then upright
      else { upright with mode := "RGB" }
    let dims := pilThumbnail converted.width converted.height MAX_IMAGE_EDGE MAX_IMAGE_EDGE
    .ok (pathStem name ++ ".jpg",
      { width := dims.1
        height := dims.2
        mode := converted.mode
        format := some "JPEG"
        exifOrientation := 1 })

/-! ## Car record state manager (Car.save in inventory/models.py)

A Car row is modelled with the columns the save logic reads or writes,
plus the resolved attributes of its `make` and `model` foreign keys (slug
and title of each, as `Car.save` dereferences them for slug derivation).
Columns irrelevant to every claim (prices, descriptors, contacts...) are
carried abstractly by the `update_fields` machinery: an unmodelled but
valid column name is accepted and changes nothing observable. -/

/-- The `Car.Status` enumeration. -/
inductive CarStatus where
  | draft
  | review
  | ready
  | published
  | archived
deriving DecidableEq, Repr

/-- A persisted Car row (primary key always assigned). -/
structure CarRow where
  pk : Nat
  title : String
  slug : String
  vin : String
  makeSlug : String
  makeTitle : String
  modelSlug : String
  modelTitle : String
  status : CarStatus
  statusChangedAt : Nat
  publishedAt : Option Nat
deriving DecidableEq, Repr

/-- An in-memory Car instance about to be saved (`self` in `Car.save`);
`pk = none` until the first insert assigns an identifier. -/
structure CarInst where
  pk : Option Nat
  title : String
  slug : String
  vin : String
  makeSlug : String
  makeTitle : String
  modelSlug : String
  modelTitle : String
  status : CarStatus
  statusChangedAt : Nat
  publishedAt : Option Nat
deriving DecidableEq, Repr

/-- Point lookup by primary key (`objects.filter(pk=...)`). -/
def findRow : List CarRow → Nat → Option CarRow
  | [], _ => none
  | r :: rs, p => if r.pk = p then some r else findRow rs p

/-- Next value of the primary-key sequence. -/
def freshPk (store : List CarRow) : Nat :=
  store.foldr (fun r m => max (r.pk + 1) m) 0

/-- Turn an instance into the row written by a full (non-partial) save
under primary key `p`. -/
def toRow (car : CarInst) (p : Nat) : CarRow :=
  { pk := p
    title := car.title
    slug := car.slug
    vin := car.vin
    makeSlug := car.makeSlug
    makeTitle := car.makeTitle
    modelSlug := car.modelSlug
    modelTitle := car.modelTitle
    status := car.status
    statusChangedAt := car.statusChangedAt
    publishedAt := car.publishedAt }

/-- Concrete non-pk column names of the Car model (Django validates
`update_fields` against these; `make`/`model` may also be addressed by
their `attname`s `make_id`/`model_id`). -/
def carFieldNames : List String :=
  ["created_at", "updated_at", "title", "slug", "vin", "make", "make_id",
   "model", "model_id", "generation", "manufacture_year", "price", "currency",
   "mileage_km", "body_type", "color", "transmission", "drive_type",
   "fuel_type", "engine_capacity_l", "engine_power_hp", "owners_count",
   "customs_cleared", "description", "contact_name", "contact_phone",
   "contact_email", "status", "status_changed_at", "published_at"]

/-- Write a single named column of the stored row from the in-memory
instance (the per-column effect of `UPDATE ... SET col = ...` under
`update_fields`).  Valid but unmodelled columns change nothing observable. -/
def applyField (old : CarRow) (car : CarInst) (f : String) : CarRow :=
  if f = "title" then { old with title := car.title }
  else if f = "slug" then { old with slug := car.slug }
  else if f = "vin" then { old with vin := car.vin }
  else if f = "make" ∨ f = "make_id" then
    { old with makeSlug := car.makeSlug, makeTitle := car.makeTitle }
  else if f = "model" ∨ f = "model_id" then
    { old with modelSlug := car.modelSlug, modelTitle := car.modelTitle }
  else if f = "status" then { old with status := car.status }
  else if f = "status_changed_at" then { old with statusChangedAt := car.statusChangedAt }
  else if f = "published_at" then { old with publishedAt := car.publishedAt }
  else old

/-- Fold the declared field set over the stored row: only the named columns
are written. -/
def mergeFields (old : CarRow) (car : CarInst) (fs : List String) : CarRow :=
  fs.foldl (fun acc f => applyField acc car f) old

/-- The slug uniqueness constraint of the `slug` column: the write violates
it when any other row carries the same slug. -/
def slugConflict (store : List CarRow) (p : Nat) (slug : String) : Bool :=
  store.any fun r => r.pk ≠ p ∧ r.slug = slug

/-- Typed errors of the SaveCar contract: `ValidationError` is raised at
the API boundary, `ConstraintViolation` for storage-level uniqueness
violations; `valueError`/`databaseError` model Django's own complaints
about a malformed `update_fields` save. -/
inductive SaveError where
  | validationError
  | constraintViolation
  | valueError
  | databaseError
deriving DecidableEq, Repr

/-- Slug derivation step of `Car.save`: only when no slug was supplied,
build `{make.slug or slugify(make.title)}-{model.slug or
slugify(model.title)}-{vin or pk or ""}` and slugify the whole
candidate. -/
def deriveSlugStep (car : CarInst) : CarInst :=
  if car.slug = "" then
    let makeSlug := if car.makeSlug ≠ "" then car.makeSlug else djangoSlugify car.makeTitle
    let modelSlug := if car.modelSlug ≠ "" then car.modelSlug else djangoSlugify car.modelTitle
    let tail :=
      if car.vin ≠ "" then car.vin
      else match car.pk with
        | some p => toString p
        | none => ""
    { car with slug := djangoSlugify (makeSlug ++ "-" ++ modelSlug ++ "-" ++ tail) }
  else car

/-- Published-at stamping step of `Car.save`: stamp the current time when
the status being persisted is `published` and `published_at` is unset. -/
def publishStep (car : CarInst) (now : Nat) : CarInst :=
  if car.status = CarStatus.published ∧ car.publishedAt = none then
    { car with publishedAt := some now }
  else car

/-- The `status_was_changed` computation of `Car.save`: with a non-empty
declared field set the caller's attestation (`"status" in update_fields`)
is trusted both ways; otherwise a missing pk counts as changed, and an
assigned pk triggers a point lookup whose result must exist *and* differ
(`previous_status is not None and previous_status != self.status`). -/
def statusWasChanged (store : List CarRow) (car : CarInst)
    (updateFields : Option (List String)) : Bool :=
  let uf := updateFields.getD []
  if uf ≠ [] then decide ("status" ∈ uf)
  else
    match car.pk with
    | none => true
    | some p =>
      match findRow store p with
      | none => false
      | some prev => decide (prev.status ≠ car.status)

/-- Status timestamp stamping step of `Car.save`. -/
def stampStep (store : List CarRow) (car : CarInst)
    (updateFields : Option (List String)) (now : Nat) : CarInst :=
  if statusWasChanged store car updateFields then
    { car with statusChangedAt := now }
  else car

/-- `super().save(*args, **kwargs)`: Django's `Model.save`.  With
`update_fields`: an empty iterable skips the write, invalid names or a
missing pk raise `ValueError`, an update matching no row raises a database
error, and otherwise only the named columns are written.  Without it, a
missing pk inserts under a fresh sequence value; an assigned pk updates the
matching row when it exists and inserts otherwise.  Every write enforces
the slug uniqueness constraint. -/
def djangoModelSave (store : List CarRow) (car : CarInst)
    (updateFields : Option (List String)) :
    Except SaveError (List CarRow × CarInst) :=
  match updateFields with
  | some fs =>
    if fs = [] then .ok (store, car)
    else if ¬ fs.all (· ∈ carFieldNames) then .error .valueError
    else
      match car.pk with
      | none => .error .valueError
      | some p =>
        match findRow store p with
        | none => .error .databaseError
        | some old =>
          let newRow := mergeFields old car fs
          if slugConflict store p newRow.slug then .error .constraintViolation
          else .ok (store.map fun r => if r.pk = p then newRow else r, car)
  | none =>
    match car.pk with
    | some p =>
      if slugConflict store p car.slug then .error .constraintViolation
      else
        match findRow store p with
        | some _ => .ok (store.map fun r => if r.pk = p then toRow car p else r, car)
        | none => .ok (store ++ [toRow car p], car)
    | none =>
      let p := freshPk store
      if slugConflict store p car.slug then .error .constraintViolation
      else .ok (store ++ [toRow car p], { car with pk := some p })

/-- `Car.save(*args, **kwargs)`: slug derivation, published-at stamping,
status-change stamping, then the framework save.  `now` models
`timezone.now()` for this save. -/
def carSave (store : List CarRow) (car : CarInst)
    (updateFields : Option (List String)) (now : Nat) :
    Except SaveError (List CarRow × CarInst) :=
  let car := deriveSlugStep car
  let car := publishStep car now
  let car := stampStep store car updateFields now
  djangoModelSave store car updateFields

/-- The in-memory instance handed to `super().save()` after the three
preparation steps of `Car.save`. -/
def preparedCar (store : List CarRow) (car : CarInst) (uf : Option (List String))
    (now : Nat) : CarInst :=
  stampStep store (publishStep (deriveSlugStep car) now) uf now

/-- Fixture: an archived car whose `published_at` was stamped at time 7. -/
def archivedCar : CarInst :=
  { pk := some 1, title := "Car A", slug := "audi-a4-x", vin := "X",
    makeSlug := "audi", makeTitle := "Audi", modelSlug := "a4", modelTitle := "A4",
    status := CarStatus.archived, statusChangedAt := 3, publishedAt := some 7 }

/-- Fixture: the stored row matching `archivedCar`. -/
def archivedStore : List CarRow := [toRow archivedCar 1]

/-- Fixture: a draft car about to be published for the first time. -/
def publishingCar : CarInst :=
  { pk := some 2, title := "Car B", slug := "bmw-x5-y", vin := "Y",
    makeSlug := "bmw", makeTitle := "BMW", modelSlug := "x5", modelTitle := "X5",
    status := CarStatus.published, statusChangedAt := 3, publishedAt := none }

/-- Fixture: the stored row of `publishingCar` before publication (still in
review). -/
def publishingStore : List CarRow :=
  [toRow { publishingCar with status := CarStatus.review } 2]

/-- Fixture: a freshly created car without slug, carrying a VIN. -/
def newVinCar : CarInst :=
  { pk := none, title := "Car C", slug := "", vin := "WAUZZZ4",
    makeSlug := "audi", makeTitle := "Audi", modelSlug := "a4", modelTitle := "A4",
    status := CarStatus.draft, statusChangedAt := 0, publishedAt := none }

/-- Fixture: a car whose stored status is draft, about to be saved with
status review. -/
def reviewCar : CarInst :=
  { pk := some 1, title := "Car D", slug := "d", vin := "",
    makeSlug := "m", makeTitle := "M", modelSlug := "n", modelTitle := "N",
    status := CarStatus.review, statusChangedAt := 0, publishedAt := none }

/-- Fixture: the stored row behind `reviewCar`, still in draft. -/
def reviewPrevRow : CarRow := toRow { reviewCar with status := CarStatus.draft } 1

/-- Fixture: the one-row store holding `reviewPrevRow`. -/
def reviewStore : List CarRow := [reviewPrevRow]

/-- Fixture: a car carrying an explicit pk although no stored row exists
under that identifier. -/
def orphanCar : CarInst :=
  { pk := some 1, title := "Car E", slug := "e", vin := "",
    makeSlug := "m", makeTitle := "M", modelSlug := "n", modelTitle := "N",
    status := CarStatus.draft, statusChangedAt := 0, publishedAt := none }

/-- Fixture: a slugless, VIN-less Tesla Model S record. -/
def teslaCar : CarInst :=
  { pk := none, title := "Car F", slug := "", vin := "",
    makeSlug := "tesla", makeTitle := "Tesla", modelSlug := "model-s",
    modelTitle := "Model S", status := CarStatus.draft, statusChangedAt := 0,
    publishedAt := none }

/-! ## CarSerializer.validate (inventory/api/serializers.py) -/

/-- Resolved `Make` reference as the serializer sees it. -/
structure MakeRef where
  id : Nat
deriving DecidableEq, Repr

/-- Resolved `CarModel` reference: its own id and its `make_id` foreign
key. -/
structure CarModelRef where
  id : Nat
  makeId : Nat
deriving DecidableEq, Repr

/-- Validated attribute bag reaching `CarSerializer.validate`: the resolved
make/model references when supplied, plus the remaining written fields,
carried opaquely (the validation must not depend on them). -/
structure CarAttrs where
  make : Option MakeRef
  model : Option CarModelRef
  others : List (String × String)
deriving DecidableEq, Repr

/-- The serializer's bound instance on update: an existing car always
carries both references. -/
structure CarBoundInst where
  make : MakeRef
  model : CarModelRef
deriving DecidableEq, Repr

/-- `attrs.get("make") or getattr(self.instance, "make", None)`. -/
def resolvedMake (attrs : CarAttrs) (inst : Option CarBoundInst) : Option MakeRef :=
  match attrs.make with
  | some m => some m
  | none => inst.map fun i => i.make

/-- `attrs.get("model") or getattr(self.instance, "model", None)`. -/
def resolvedModel (attrs : CarAttrs) (inst : Option CarBoundInst) : Option CarModelRef :=
  match attrs.model with
  | some m => some m
  | none => inst.map fun i => i.model

/-- `CarSerializer.validate`: reject when both a make and a model are in
play (directly or resolved from the bound instance) and the model does not
belong to the make; otherwise pass the attributes through. -/
def carSerializerValidate (attrs : CarAttrs) (inst : Option CarBoundInst) :
    Except SaveError CarAttrs :=
  match resolvedMake attrs inst, resolvedModel attrs inst with
  | some mk, some mo =>
    if mo.makeId ≠ mk.id then .error .validationError
    else .ok attrs
  | _, _ => .ok attrs

/-! ## CarImage.save (inventory/models.py) -/

/-- An image file attached to a CarImage: its storage name, its decoded view
(`none` when the bytes cannot be decoded), and Django's `_committed` flag
(false for a fresh upload not yet written to storage). -/
structure CarImageFile where
  name : String
  content : Option PILImage
  committed : Bool
deriving DecidableEq, Repr

/-- A persisted CarImage row. -/
structure CarImageRow where
  pk : Nat
  carId : Nat
  image : Option CarImageFile
  caption : String
  isPrimary : Bool
  ordering : Nat
deriving DecidableEq, Repr

/-- An in-memory CarImage instance about to be saved. -/
structure CarImageInst where
  pk : Option Nat
  carId : Nat
  image : Option CarImageFile
  caption : String
  isPrimary : Bool
  ordering : Nat
deriving DecidableEq, Repr

/-- Row written for an instance under primary key `p`. -/
def toImageRow (img : CarImageInst) (p : Nat) : CarImageRow :=
  { pk := p
    carId := img.carId
    image := img.image
    caption := img.caption
    isPrimary := img.isPrimary
    ordering := img.ordering }

/-- Point lookup of a CarImage row by primary key. -/
def findImage : List CarImageRow → Nat → Option CarImageRow
  | [], _ => none
  | r :: rs, p => if r.pk = p then some r else findImage rs p

/-- Next value of the CarImage primary-key sequence. -/
def freshImagePk (store : List CarImageRow) : Nat :=
  store.foldr (fun r m => max (r.pk + 1) m) 0

/-- Step (1) of `CarImage.save`: when an image file is present and not yet
committed, run the optimisation pipeline and replace the payload and name
(`self.image.save(name, optimised_file, save=False)` leaves the file
committed); decoding failure aborts the whole save. -/
def carImageStep1 (img : CarImageInst) : Except ImgError CarImageInst :=
  match img.image with
  | some file =>
    if file.committed then .ok img
    else
      match optimise_car_image file.name file.content with
      | .error e => .error e
      | .ok (n, out) =>
        .ok { img with image := some { name := n, content := some out, committed := true } }
  | none => .ok img

/-- Step (2) of `CarImage.save`: `super().save()` — insert under a fresh
sequence value when the pk is unset, update the matching row when it exists,
insert under the given pk otherwise.  Returns the new store and the row's
primary key. -/
def carImagePersist (store : List CarImageRow) (img : CarImageInst) :
    List CarImageRow × Nat :=
  match img.pk with
  | some p =>
    if (findImage store p).isSome then
      (store.map fun r => if r.pk = p then toImageRow img p else r, p)
    else (store ++ [toImageRow img p], p)
  | none =>
    (store ++ [toImageRow img (freshImagePk store)], freshImagePk store)

/-- Step (3) of `CarImage.save`:
`objects.filter(car=self.car, is_primary=True).exclude(pk=self.pk).update(is_primary=False)` —
clear the primary flag, and only that flag, on every other image of the same
car. -/
def clearSiblings (store : List CarImageRow) (c p : Nat) : List CarImageRow :=
  store.map fun r =>
    if r.carId = c ∧ r.isPrimary = true ∧ r.pk ≠ p then { r with isPrimary := false }
    else r

/-- `CarImage.save`: optimise an uncommitted payload (aborting on
undecodable bytes), persist the row, then enforce the single-primary
invariant when the saved image is primary. -/
def carImageSave (store : List CarImageRow) (img : CarImageInst) :
    Except ImgError (List CarImageRow × CarImageInst) :=
  match carImageStep1 img with
  | .error e => .error e
  | .ok img1 =>
    let persisted := carImagePersist store img1
    let img2 := { img1 with pk := some persisted.2 }
    .ok (if img2.isPrimary then clearSiblings persisted.1 img2.carId persisted.2
         else persisted.1, img2)

/-- The store after a `CarImage.save` attempt; an aborted save leaves the
store untouched. -/
def carImageSaveStore (store : List CarImageRow) (img : CarImageInst) :
    List CarImageRow :=
  match carImageSave store img with
  | .ok (s, _) => s
  | .error _ => store

/-- Replay a sequence of CarImage saves against an initially empty store. -/
def saveImagesAll (imgs : List CarImageInst) : List CarImageRow :=
  imgs.foldl carImageSaveStore []

/-- True when the instance carries no fresh upload (nothing to optimise). -/
def imageCommitted (img : CarImageInst) : Bool :=
  match img.image with
  | none => true
  | some f => f.committed

/-- The single-primary invariant: any two primary rows of the same car are
the same row (by pk). -/
def atMostOnePrimary (s : List CarImageRow) : Prop :=
  ∀ r ∈ s, ∀ q ∈ s, r.carId = q.carId → r.isPrimary = true → q.isPrimary = true →
    r.pk = q.pk

/-- Fixture: an already-stored primary image of car 1. -/
def soloImage : CarImageInst :=
  { pk := some 1, carId := 1, image := none, caption := "", isPrimary := true,
    ordering := 0 }

/-- Fixture: a fresh upload for car 1 whose bytes cannot be decoded. -/
def brokenUpload : CarImageInst :=
  { pk := none, carId := 1,
    image := some { name := "broken.bin", content := none, committed := false },
    caption := "", isPrimary := true, ordering := 1 }

/-- Fixture: a second, fresh primary image for car 1 (payload already
committed). -/
def secondImage : CarImageInst :=
  { pk := none, carId := 1, image := none, caption := "front", isPrimary := true,
    ordering := 1 }

/-! ## Lemmas and claim theorems -/

example : djangoSlugify "Audi" = "audi" := by decide

example : djangoSlugify "tesla-model-s-" = "tesla-model-s" := by decide

example : djangoSlugify "  Model  S!! " = "model-s" := by decide

example : pilThumbnail 4000 3000 2560 2560 = (2560, 1920) := by decide

example : pilThumbnail 3000 4000 2560 2560 = (1920, 2560) := by decide

example : pilThumbnail 1200 800 2560 2560 = (1200, 800) := by decide

/-- The floor rounding candidate over-approximates the exact value by less
than one denominator: `n < (n / d + 1) * d`. -/
lemma floor_succ_mul_gt (n d : Nat) (hd : 0 < d) : n < (n / d + 1) * d := by
  have h1 := Nat.div_add_mod n d
  have h2 : n % d < d := Nat.mod_lt _ hd
  have h3 : (n / d + 1) * d = d * (n / d) + d := by ring
  omega

/-- The ceiling rounding candidate `(n + d - 1) / d` is at least `n / d`. -/
lemma ceil_ge_floor (n d : Nat) (hd : 0 < d) : n / d ≤ (n + d - 1) / d := by
  apply Nat.div_le_div_right
  omega

/-- The ceiling rounding candidate dominates the exact value:
`n ≤ ((n + d - 1) / d) * d`. -/
lemma ceil_mul_ge (n d : Nat) (hd : 0 < d) : n ≤ (n + d - 1) / d * d := by
  have h1 : n + d - 1 < ((n + d - 1) / d + 1) * d := floor_succ_mul_gt _ _ hd
  have h2 : ((n + d - 1) / d + 1) * d = (n + d - 1) / d * d + d := by ring
  have h3 : n + d = (n + d - 1) + 1 := by omega
  have h4 : n + d ≤ (n + d - 1) / d * d + d := by
    rw [h3]
    exact Nat.succ_le_of_lt (h2 ▸ h1)
  exact Nat.le_of_add_le_add_right h4

/-- The ceiling rounding candidate exceeds the floor one by at most one. -/
lemma ceil_le_floor_succ (n d : Nat) (hd : 0 < d) : (n + d - 1) / d ≤ n / d + 1 := by
  have h1 : n + d - 1 ≤ n + d := by omega
  have h2 : (n + d - 1) / d ≤ (n + d) / d := Nat.div_le_div_right h1
  have h3 : (n + d) / d = n / d + 1 := Nat.add_div_right n hd
  omega

/-- Monotone bound for the ceiling candidate: if `n ≤ m * d` then
`(n + d - 1) / d ≤ m`. -/
lemma ceil_le_of_le_mul (n d m : Nat) (hd : 0 < d) (h : n ≤ m * d) :
    (n + d - 1) / d ≤ m := by
  have h1 : n + d - 1 < (m + 1) * d := by
    have : (m + 1) * d = m * d + d := by ring
    omega
  have h2 : (n + d - 1) / d < m + 1 := (Nat.div_lt_iff_lt_mul hd).mpr h1
  omega

/-- Rounding the aspect-preserving value down lands within one denominator
of the exact product. -/
lemma dist_floorPick (n d : Nat) (hd : 0 < d) : Nat.dist (n / d * d) n ≤ d := by
  have h1 := Nat.div_add_mod n d
  have h2 : n % d < d := Nat.mod_lt _ hd
  have h3 : n / d * d = d * (n / d) := by ring
  simp only [Nat.dist]
  omega

/-- Rounding the aspect-preserving value up lands within one denominator of
the exact product. -/
lemma dist_ceilPick (n d : Nat) (hd : 0 < d) : Nat.dist ((n + d - 1) / d * d) n ≤ d := by
  have h1 := ceil_mul_ge n d hd
  have h2 := ceil_le_floor_succ n d hd
  have h3 := Nat.div_mul_le_self n d
  have h4 : ((n + d - 1) / d) * d ≤ (n / d + 1) * d := Nat.mul_le_mul_right d h2
  have h5 : (n / d + 1) * d = n / d * d + d := by ring
  simp only [Nat.dist]
  omega

/-- A vanishing floor candidate means the numerator is below the
denominator. -/
lemma floor_eq_zero_lt (n d : Nat) (hd : 0 < d) (h0 : n / d = 0) : n < d := by
  have h1 := Nat.div_add_mod n d
  have h2 : n % d < d := Nat.mod_lt _ hd
  rw [h0] at h1
  omega

/-- The ceiling candidate of a positive numerator is positive. -/
lemma ceil_pos (n d : Nat) (hd : 0 < d) (hn : 1 ≤ n) : 1 ≤ (n + d - 1) / d := by
  have h1 : d ≤ n + d - 1 := by omega
  have h2 : d / d ≤ (n + d - 1) / d := Nat.div_le_div_right h1
  have h3 : d / d = 1 := Nat.div_self hd
  omega

/-- `round_aspect` bound: whichever of floor/ceiling the key selects, after
clamping to at least 1 the rounded dimension multiplied back differs from
the exact product by at most one denominator. -/
lemma roundAspect_bound (n d x : Nat) (hd : 0 < d) (hn : 1 ≤ n)
    (hx : x = n / d ∨ x = (n + d - 1) / d) :
    Nat.dist (max x 1 * d) n ≤ d := by
  rcases hx with hx | hx
  · rcases Nat.eq_zero_or_pos x with h0 | h1
    · have hnd : n < d := floor_eq_zero_lt n d hd (by omega)
      rw [h0]
      simp only [Nat.dist, Nat.one_mul, Nat.max_self, Nat.zero_le, Nat.max_eq_right,
        Nat.le_refl, Nat.max_eq_left]
      omega
    · rw [Nat.max_eq_left h1, hx]
      exact dist_floorPick n d hd
  · have h1 : 1 ≤ x := by
      rw [hx]
      exact ceil_pos n d hd hn
    rw [Nat.max_eq_left h1, hx]
    exact dist_ceilPick n d hd

/-- Images already inside the bounding box are returned unchanged by
`Image.thumbnail` (no upscaling). -/
lemma pilThumbnail_unchanged (w h mx my : Nat) (hw : w ≤ mx) (hh : h ≤ my) :
    pilThumbnail w h mx my = (w, h) := by
  unfold pilThumbnail
  rw [if_pos ⟨hw, hh⟩]

/-- After `Image.thumbnail`, neither dimension exceeds the bounding box. -/
lemma pilThumbnail_fits (w h mx my : Nat) (hh : 1 ≤ h) (hw : 1 ≤ w)
    (hmx : 1 ≤ mx) (hmy : 1 ≤ my) :
    (pilThumbnail w h mx my).1 ≤ mx ∧ (pilThumbnail w h mx my).2 ≤ my := by
  unfold pilThumbnail
  split_ifs with hfit hland
  · exact hfit
  · refine ⟨?_, Nat.le_refl my⟩
    have hc : (my * w + h - 1) / h ≤ mx := by
      apply ceil_le_of_le_mul _ _ _ hh
      calc my * w = w * my := Nat.mul_comm my w
        _ ≤ mx * h := hland
    have hf : my * w / h ≤ (my * w + h - 1) / h := ceil_ge_floor _ _ hh
    apply Nat.max_le.mpr
    constructor
    · split_ifs with hkey
      · exact Nat.le_trans hf hc
      · exact hc
    · exact hmx
  · refine ⟨Nat.le_refl mx, ?_⟩
    have hc : (mx * h + w - 1) / w ≤ my := by
      apply ceil_le_of_le_mul _ _ _ hw
      have hlt : w * my > mx * h := Nat.lt_of_not_le hland
      calc mx * h ≤ w * my := Nat.le_of_lt hlt
        _ = my * w := Nat.mul_comm w my
    have hf : mx * h / w ≤ (mx * h + w - 1) / w := ceil_ge_floor _ _ hw
    apply Nat.max_le.mpr
    refine ⟨?_, hmy⟩
    split_ifs with hz hkey
    · exact Nat.le_trans hf hc
    · exact Nat.le_trans hf hc
    · exact hc

/-- After `Image.thumbnail`, the rounded output dimensions preserve the
aspect ratio up to the unavoidable rounding error: the cross products of
the output pair with the input pair differ by at most `max w h`. -/
lemma pilThumbnail_aspect (w h mx my : Nat) (hw : 1 ≤ w) (hh : 1 ≤ h)
    (hmx : 1 ≤ mx) (hmy : 1 ≤ my) :
    Nat.dist ((pilThumbnail w h mx my).1 * h) ((pilThumbnail w h mx my).2 * w)
      ≤ max w h := by
  unfold pilThumbnail
  split_ifs with hfit hland
  · simp only [Nat.mul_comm w h, Nat.dist_self]
    exact Nat.zero_le _
  · refine Nat.le_trans ?_ (Nat.le_max_right w h)
    have hn : 1 ≤ my * w := Nat.mul_le_mul hmy hw
    apply roundAspect_bound (my * w) h _ hh hn
    split_ifs with hkey
    · left
      rfl
    · right
      rfl
  · refine Nat.le_trans ?_ (Nat.le_max_left w h)
    rw [Nat.dist_comm]
    have hn : 1 ≤ mx * h := Nat.mul_le_mul hmx hh
    apply roundAspect_bound (mx * h) w _ hw hn
    split_ifs with hz hkey
    · left
      rfl
    · left
      rfl
    · right
      rfl

example : pathStem "photo.png" = "photo" := by decide

example : pathStem "archive.tar.gz" = "archive.tar" := by decide

example : pathStem "cars/2024/01/02/pic.jpeg" = "pic" := by decide

example : pathStem ".bashrc" = ".bashrc" := by decide

example : pathStem "noext" = "noext" := by decide

example :
    optimise_car_image "photo.png"
      (some { width := 4000, height := 3000, mode := "RGB", format := some "PNG",
              exifOrientation := 1 }) =
    .ok ("photo.jpg",
      { width := 2560, height := 1920, mode := "RGB", format := some "JPEG",
        exifOrientation := 1 }) := by rfl

/-- Closed form of `optimise_car_image` on decodable input. -/
lemma optimise_car_image_some (name : String) (img : PILImage) :
    optimise_car_image name (some img) =
      .ok (pathStem name ++ ".jpg",
        { width := (pilThumbnail (exifTranspose img).width (exifTranspose img).height
            MAX_IMAGE_EDGE MAX_IMAGE_EDGE).1
          height := (pilThumbnail (exifTranspose img).width (exifTranspose img).height
            MAX_IMAGE_EDGE MAX_IMAGE_EDGE).2
          mode := if (exifTranspose img).mode = "RGB" ∨ (exifTranspose img).mode = "L"
            then (exifTranspose img).mode else "RGB"
          format := some "JPEG"
          exifOrientation := 1 }) := by
  unfold optimise_car_image
  by_cases hm : (exifTranspose img).mode = "RGB" ∨ (exifTranspose img).mode = "L"
  · simp [hm]
  · simp [hm]

/-- Applying the EXIF orientation permutes the two dimensions, so both stay
positive. -/
lemma exifTranspose_pos (img : PILImage) (hw : 1 ≤ img.width) (hh : 1 ≤ img.height) :
    1 ≤ (exifTranspose img).width ∧ 1 ≤ (exifTranspose img).height := by
  unfold exifTranspose
  constructor
  · simp only []
    split_ifs <;> simpa
  · simp only []
    split_ifs <;> simpa

/-- C4: for every decodable input image, `optimise_car_image` produces an
image in which neither dimension exceeds 2560 pixels, the aspect ratio (of
the upright, orientation-corrected pixel buffer) is preserved up to the
integer rounding of one dimension, and images already within bounds keep
their dimensions unchanged (never upscaled); in particular a 4000×3000
input named `photo.png` yields a 2560×1920 JPEG named `photo.jpg`. -/
theorem optimise_car_image_bounds :
    (∀ (name : String) (img : PILImage), 1 ≤ img.width → 1 ≤ img.height →
      ∃ outName out,
        optimise_car_image name (some img) = .ok (outName, out) ∧
        out.width ≤ 2560 ∧ out.height ≤ 2560 ∧
        Nat.dist (out.width * (exifTranspose img).height)
            (out.height * (exifTranspose img).width)
          ≤ max (exifTranspose img).width (exifTranspose img).height ∧
        ((exifTranspose img).width ≤ 2560 → (exifTranspose img).height ≤ 2560 →
          out.width = (exifTranspose img).width ∧
          out.height = (exifTranspose img).height)) ∧
    optimise_car_image "photo.png"
        (some { width := 4000, height := 3000, mode := "RGB", format := some "PNG",
                exifOrientation := 1 }) =
      .ok ("photo.jpg",
        { width := 2560, height := 1920, mode := "RGB", format := some "JPEG",
          exifOrientation := 1 }) := by
  constructor
  · intro name img hw hh
    obtain ⟨hw1, hh1⟩ := exifTranspose_pos img hw hh
    have hedge : (1 : Nat) ≤ MAX_IMAGE_EDGE := by
      decide
    have hfits := pilThumbnail_fits (exifTranspose img).width (exifTranspose img).height
      MAX_IMAGE_EDGE MAX_IMAGE_EDGE hh1 hw1 hedge hedge
    have hasp := pilThumbnail_aspect (exifTranspose img).width (exifTranspose img).height
      MAX_IMAGE_EDGE MAX_IMAGE_EDGE hw1 hh1 hedge hedge
    refine ⟨_, _, optimise_car_image_some name img, ?_, ?_, ?_, ?_⟩
    · exact hfits.1
    · exact hfits.2
    · exact hasp
    · intro hbw hbh
      have := pilThumbnail_unchanged (exifTranspose img).width (exifTranspose img).height
        MAX_IMAGE_EDGE MAX_IMAGE_EDGE hbw hbh
      rw [this]
      exact ⟨rfl, rfl⟩
  · rfl

/-- Witness for C4 at a concrete input: a 3000×5000 palette image with a
90°-rotating EXIF orientation. -/
theorem optimise_car_image_bounds_witness :
    ∃ outName out,
      optimise_car_image "pic.png"
          (some { width := 3000, height := 5000, mode := "P", format := some "PNG",
                  exifOrientation := 6 }) = .ok (outName, out) ∧
      out.width ≤ 2560 ∧ out.height ≤ 2560 ∧
      Nat.dist
          (out.width *
            (exifTranspose
              { width := 3000, height := 5000, mode := "P", format := some "PNG",
                exifOrientation := 6 }).height)
          (out.height *
            (exifTranspose
              { width := 3000, height := 5000, mode := "P", format := some "PNG",
                exifOrientation := 6 }).width)
        ≤ max
            (exifTranspose
              { width := 3000, height := 5000, mode := "P", format := some "PNG",
                exifOrientation := 6 }).width
            (exifTranspose
              { width := 3000, height := 5000, mode := "P", format := some "PNG",
                exifOrientation := 6 }).height ∧
      ((exifTranspose
            { width := 3000, height := 5000, mode := "P", format := some "PNG",
              exifOrientation := 6 }).width ≤ 2560 →
        (exifTranspose
            { width := 3000, height := 5000, mode := "P", format := some "PNG",
              exifOrientation := 6 }).height ≤ 2560 →
        out.width =
            (exifTranspose
              { width := 3000, height := 5000, mode := "P", format := some "PNG",
                exifOrientation := 6 }).width ∧
        out.height =
            (exifTranspose
              { width := 3000, height := 5000, mode := "P", format := some "PNG",
                exifOrientation := 6 }).height) :=
  optimise_car_image_bounds.1 "pic.png"
    { width := 3000, height := 5000, mode := "P", format := some "PNG",
      exifOrientation := 6 } (by decide) (by decide)

/-- An image whose orientation tag is already 1 passes through
`exif_transpose` unchanged. -/
lemma exifTranspose_upright (img : PILImage) (h1 : img.exifOrientation = 1) :
    exifTranspose img = img := by
  cases img with
  | mk w h m f e =>
    simp only [PILImage.mk.injEq] at h1 ⊢
    subst h1
    have hs : ¬((1 : Nat) = 5 ∨ (1 : Nat) = 6 ∨ (1 : Nat) = 7 ∨ (1 : Nat) = 8) := by
      decide
    unfold exifTranspose
    simp [hs]

/-- C5: normalisation is dimension-idempotent; re-running
`optimise_car_image` on its own output succeeds, keeps the maximum
dimension of the first pass, and both passes produce JPEG output. -/
theorem optimise_car_image_idempotent (name outName : String) (img out : PILImage)
    (hw : 1 ≤ img.width) (hh : 1 ≤ img.height)
    (hrun : optimise_car_image name (some img) = .ok (outName, out)) :
    ∃ outName2 out2,
      optimise_car_image outName (some out) = .ok (outName2, out2) ∧
      max out2.width out2.height = max out.width out.height ∧
      out.format = some "JPEG" ∧ out2.format = some "JPEG" := by
  rw [optimise_car_image_some name img] at hrun
  simp only [Except.ok.injEq, Prod.mk.injEq] at hrun
  obtain ⟨hname, hout⟩ := hrun
  obtain ⟨hw1, hh1⟩ := exifTranspose_pos img hw hh
  have hedge : (1 : Nat) ≤ MAX_IMAGE_EDGE := by decide
  have hfits := pilThumbnail_fits (exifTranspose img).width (exifTranspose img).height
    MAX_IMAGE_EDGE MAX_IMAGE_EDGE hh1 hw1 hedge hedge
  have houtw : out.width ≤ MAX_IMAGE_EDGE := by
    rw [← hout]
    exact hfits.1
  have houth : out.height ≤ MAX_IMAGE_EDGE := by
    rw [← hout]
    exact hfits.2
  have horient : out.exifOrientation = 1 := by
    rw [← hout]
  have hmode : out.mode = "RGB" ∨ out.mode = "L" := by
    rw [← hout]
    simp only []
    split_ifs with hc
    · exact hc
    · left
      rfl
  have hformat : out.format = some "JPEG" := by
    rw [← hout]
  refine ⟨_, _, optimise_car_image_some outName out, ?_, hformat, ?_⟩
  · rw [exifTranspose_upright out horient,
      pilThumbnail_unchanged out.width out.height MAX_IMAGE_EDGE MAX_IMAGE_EDGE houtw houth]
  · rfl

/-- Witness for C5: feeding the 2560×1920 JPEG produced from the 4000×3000
example back through the pipeline. -/

theorem optimise_car_image_idempotent_witness :
    ∃ outName2 out2,
      optimise_car_image "photo.jpg"
          (some { width := 2560, height := 1920, mode := "RGB", format := some "JPEG",
                  exifOrientation := 1 }) = .ok (outName2, out2) ∧
      max out2.width out2.height = max 2560 1920 ∧
      (some "JPEG" : Option String) = some "JPEG" ∧ out2.format = some "JPEG" :=
  optimise_car_image_idempotent "photo.png" "photo.jpg"
    { width := 4000, height := 3000, mode := "RGB", format := some "PNG",
      exifOrientation := 1 }
    { width := 2560, height := 1920, mode := "RGB", format := some "JPEG",
      exifOrientation := 1 }
    (by decide) (by decide) (by rfl)

lemma deriveSlugStep_pk (car : CarInst) : (deriveSlugStep car).pk = car.pk := by
  unfold deriveSlugStep
  split <;> rfl

lemma deriveSlugStep_status (car : CarInst) : (deriveSlugStep car).status = car.status := by
  unfold deriveSlugStep
  split <;> rfl

lemma deriveSlugStep_statusChangedAt (car : CarInst) :
    (deriveSlugStep car).statusChangedAt = car.statusChangedAt := by
  unfold deriveSlugStep
  split <;> rfl

lemma deriveSlugStep_publishedAt (car : CarInst) :
    (deriveSlugStep car).publishedAt = car.publishedAt := by
  unfold deriveSlugStep
  split <;> rfl

lemma deriveSlugStep_slug (car : CarInst) :
    (deriveSlugStep car).slug =
      if car.slug = "" then
        djangoSlugify
          ((if car.makeSlug ≠ "" then car.makeSlug else djangoSlugify car.makeTitle) ++ "-" ++
            (if car.modelSlug ≠ "" then car.modelSlug else djangoSlugify car.modelTitle) ++ "-" ++
            (if car.vin ≠ "" then car.vin
             else match car.pk with
               | some p => toString p
               | none => ""))
      else car.slug := by
  unfold deriveSlugStep
  split <;> rfl

lemma publishStep_pk (car : CarInst) (now : Nat) : (publishStep car now).pk = car.pk := by
  unfold publishStep
  split <;> rfl

lemma publishStep_slug (car : CarInst) (now : Nat) : (publishStep car now).slug = car.slug := by
  unfold publishStep
  split <;> rfl

lemma publishStep_status (car : CarInst) (now : Nat) :
    (publishStep car now).status = car.status := by
  unfold publishStep
  split <;> rfl

lemma publishStep_statusChangedAt (car : CarInst) (now : Nat) :
    (publishStep car now).statusChangedAt = car.statusChangedAt := by
  unfold publishStep
  split <;> rfl

lemma publishStep_publishedAt (car : CarInst) (now : Nat) :
    (publishStep car now).publishedAt =
      if car.status = CarStatus.published ∧ car.publishedAt = none then some now
      else car.publishedAt := by
  unfold publishStep
  split <;> rfl

lemma stampStep_pk (store : List CarRow) (car : CarInst) (uf : Option (List String))
    (now : Nat) : (stampStep store car uf now).pk = car.pk := by
  unfold stampStep
  split <;> rfl

lemma stampStep_slug (store : List CarRow) (car : CarInst) (uf : Option (List String))
    (now : Nat) : (stampStep store car uf now).slug = car.slug := by
  unfold stampStep
  split <;> rfl

lemma stampStep_status (store : List CarRow) (car : CarInst) (uf : Option (List String))
    (now : Nat) : (stampStep store car uf now).status = car.status := by
  unfold stampStep
  split <;> rfl

lemma stampStep_publishedAt (store : List CarRow) (car : CarInst)
    (uf : Option (List String)) (now : Nat) :
    (stampStep store car uf now).publishedAt = car.publishedAt := by
  unfold stampStep
  split <;> rfl

lemma stampStep_statusChangedAt (store : List CarRow) (car : CarInst)
    (uf : Option (List String)) (now : Nat) :
    (stampStep store car uf now).statusChangedAt =
      if statusWasChanged store car uf then now else car.statusChangedAt := by
  unfold stampStep
  split <;> simp_all

lemma findRow_eq_none (store : List CarRow) (p : Nat)
    (h : ∀ r ∈ store, r.pk ≠ p) : findRow store p = none := by
  induction store with
  | nil => rfl
  | cons r rs ih =>
    unfold findRow
    rw [if_neg (h r (List.mem_cons_self r rs))]
    exact ih fun x hx => h x (List.mem_cons_of_mem r hx)

lemma findRow_mem (store : List CarRow) (p : Nat) (r : CarRow)
    (h : findRow store p = some r) : r ∈ store ∧ r.pk = p := by
  induction store with
  | nil => simp [findRow] at h
  | cons x xs ih =>
    unfold findRow at h
    by_cases hx : x.pk = p
    · rw [if_pos hx, Option.some.injEq] at h
      subst h
      exact ⟨List.mem_cons_self _ _, hx⟩
    · rw [if_neg hx] at h
      obtain ⟨hm, hp⟩ := ih h
      exact ⟨List.mem_cons_of_mem x hm, hp⟩

lemma findRow_append_left (l1 l2 : List CarRow) (p : Nat) (r : CarRow)
    (h : findRow l1 p = some r) : findRow (l1 ++ l2) p = some r := by
  induction l1 with
  | nil => simp [findRow] at h
  | cons x xs ih =>
    rw [List.cons_append]
    unfold findRow at h ⊢
    by_cases hx : x.pk = p
    · rw [if_pos hx] at h ⊢
      exact h
    · rw [if_neg hx] at h ⊢
      exact ih h

lemma findRow_append_right (l1 l2 : List CarRow) (p : Nat)
    (h : findRow l1 p = none) : findRow (l1 ++ l2) p = findRow l2 p := by
  induction l1 with
  | nil => rfl
  | cons x xs ih =>
    rw [List.cons_append]
    have hstep : findRow (x :: (xs ++ l2)) p =
        if x.pk = p then some x else findRow (xs ++ l2) p := rfl
    rw [hstep]
    unfold findRow at h
    by_cases hx : x.pk = p
    · rw [if_pos hx] at h
      cases h
    · rw [if_neg hx] at h
      rw [if_neg hx]
      exact ih h

lemma findRow_replace_self (store : List CarRow) (p : Nat) (newRow : CarRow)
    (hpk : newRow.pk = p) :
    findRow (store.map fun r => if r.pk = p then newRow else r) p =
      (findRow store p).map fun _ => newRow := by
  induction store with
  | nil => rfl
  | cons x xs ih =>
    by_cases hx : x.pk = p
    · simp only [List.map_cons, if_pos hx]
      unfold findRow
      rw [if_pos hpk, if_pos hx]
      rfl
    · simp only [List.map_cons, if_neg hx]
      unfold findRow
      rw [if_neg hx, if_neg hx]
      exact ih

lemma findRow_replace_other (store : List CarRow) (p q : Nat) (newRow : CarRow)
    (hpk : newRow.pk = p) (hq : q ≠ p) :
    findRow (store.map fun r => if r.pk = p then newRow else r) q =
      findRow store q := by
  induction store with
  | nil => rfl
  | cons x xs ih =>
    by_cases hx : x.pk = p
    · simp only [List.map_cons, if_pos hx]
      unfold findRow
      have h1 : ¬ newRow.pk = q := by
        rw [hpk]
        exact fun h => hq h.symm
      have h2 : ¬ x.pk = q := by
        rw [hx]
        exact fun h => hq h.symm
      rw [if_neg h1, if_neg h2]
      exact ih
    · simp only [List.map_cons, if_neg hx]
      unfold findRow
      by_cases hxq : x.pk = q
      · rw [if_pos hxq, if_pos hxq]
      · rw [if_neg hxq, if_neg hxq]
        exact ih

lemma pk_lt_freshPk (store : List CarRow) (r : CarRow) (h : r ∈ store) :
    r.pk < freshPk store := by
  induction store with
  | nil => cases h
  | cons x xs ih =>
    unfold freshPk
    rcases List.mem_cons.mp h with h | h
    · subst h
      simp only [List.foldr_cons]
      omega
    · have := ih h
      unfold freshPk at this
      simp only [List.foldr_cons]
      omega

lemma findRow_freshPk (store : List CarRow) : findRow store (freshPk store) = none :=
  findRow_eq_none store (freshPk store) fun r hr =>
    Nat.ne_of_lt (pk_lt_freshPk store r hr)

lemma djangoModelSave_none_pk_some (store : List CarRow) (car : CarInst) (p : Nat)
    (hpk : car.pk = some p) :
    djangoModelSave store car none =
      if slugConflict store p car.slug then .error .constraintViolation
      else
        match findRow store p with
        | some _ => .ok (store.map fun r => if r.pk = p then toRow car p else r, car)
        | none => .ok (store ++ [toRow car p], car) := by
  unfold djangoModelSave
  rw [hpk]

lemma djangoModelSave_none_pk_none (store : List CarRow) (car : CarInst)
    (hpk : car.pk = none) :
    djangoModelSave store car none =
      if slugConflict store (freshPk store) car.slug then .error .constraintViolation
      else .ok (store ++ [toRow car (freshPk store)],
        { car with pk := some (freshPk store) }) := by
  unfold djangoModelSave
  rw [hpk]

lemma djangoModelSave_some_eq (store : List CarRow) (car : CarInst) (fs : List String) :
    djangoModelSave store car (some fs) =
      (if fs = [] then .ok (store, car)
       else if ¬ fs.all (· ∈ carFieldNames) then .error .valueError
       else
         match car.pk with
         | none => .error .valueError
         | some p =>
           match findRow store p with
           | none => .error .databaseError
           | some old =>
             if slugConflict store p (mergeFields old car fs).slug then
               .error .constraintViolation
             else .ok (store.map fun r => if r.pk = p then mergeFields old car fs else r,
               car)) := rfl

/-- The instance returned by a successful `Model.save` is the instance that
was passed in, except that an insert assigns the fresh primary key. -/
lemma djangoModelSave_ok_inst (store : List CarRow) (car : CarInst)
    (uf : Option (List String)) (S2 : List CarRow) (car2 : CarInst)
    (h : djangoModelSave store car uf = .ok (S2, car2)) :
    car2 = car ∨ (car.pk = none ∧ car2 = { car with pk := some (freshPk store) }) := by
  cases uf with
  | some fs =>
    rw [djangoModelSave_some_eq] at h
    by_cases h0 : fs = []
    · rw [if_pos h0] at h
      simp only [Except.ok.injEq, Prod.mk.injEq] at h
      exact Or.inl h.2.symm
    · rw [if_neg h0] at h
      by_cases h1 : fs.all (· ∈ carFieldNames)
      · rw [if_neg (not_not_intro h1)] at h
        cases hpk : car.pk with
        | none =>
          simp only [hpk] at h
          exact (Except.noConfusion h)
        | some p =>
          simp only [hpk] at h
          cases hfind : findRow store p with
          | none =>
            simp only [hfind] at h
            exact (Except.noConfusion h)
          | some old =>
            simp only [hfind] at h
            by_cases hc : slugConflict store p (mergeFields old car fs).slug = true
            · rw [if_pos hc] at h
              exact (Except.noConfusion h)
            · rw [if_neg hc] at h
              simp only [Except.ok.injEq, Prod.mk.injEq] at h
              exact Or.inl h.2.symm
      · rw [if_pos h1] at h
        exact (Except.noConfusion h)
  | none =>
    cases hpk : car.pk with
    | some p =>
      rw [djangoModelSave_none_pk_some store car p hpk] at h
      by_cases hc : slugConflict store p car.slug = true
      · rw [if_pos hc] at h
        exact (Except.noConfusion h)
      · rw [if_neg hc] at h
        cases hfind : findRow store p with
        | none =>
          simp only [hfind] at h
          simp only [Except.ok.injEq, Prod.mk.injEq] at h
          exact Or.inl h.2.symm
        | some old =>
          simp only [hfind] at h
          simp only [Except.ok.injEq, Prod.mk.injEq] at h
          exact Or.inl h.2.symm
    | none =>
      rw [djangoModelSave_none_pk_none store car hpk] at h
      by_cases hc : slugConflict store (freshPk store) car.slug = true
      · rw [if_pos hc] at h
        exact (Except.noConfusion h)
      · rw [if_neg hc] at h
        simp only [Except.ok.injEq, Prod.mk.injEq] at h
        exact Or.inr ⟨rfl, h.2.symm⟩

/-- A successful full (non-partial) `Model.save` leaves the saved instance
retrievable by its primary key, with every column taken from the
instance. -/
lemma djangoModelSave_none_row (store : List CarRow) (car : CarInst)
    (S2 : List CarRow) (car2 : CarInst)
    (h : djangoModelSave store car none = .ok (S2, car2)) :
    ∃ p, car2.pk = some p ∧ findRow S2 p = some (toRow car p) := by
  cases hpk : car.pk with
  | some p =>
    rw [djangoModelSave_none_pk_some store car p hpk] at h
    by_cases hc : slugConflict store p car.slug = true
    · rw [if_pos hc] at h
      exact (Except.noConfusion h)
    · rw [if_neg hc] at h
      cases hfind : findRow store p with
      | none =>
        simp only [hfind] at h
        simp only [Except.ok.injEq, Prod.mk.injEq] at h
        obtain ⟨hS, hcar⟩ := h
        refine ⟨p, ?_, ?_⟩
        · rw [← hcar]
          exact hpk
        · rw [← hS, findRow_append_right _ _ _ hfind]
          have hrow : (toRow car p).pk = p := rfl
          unfold findRow
          rw [if_pos hrow]
      | some old =>
        simp only [hfind] at h
        simp only [Except.ok.injEq, Prod.mk.injEq] at h
        obtain ⟨hS, hcar⟩ := h
        refine ⟨p, ?_, ?_⟩
        · rw [← hcar]
          exact hpk
        · rw [← hS, findRow_replace_self store p (toRow car p) rfl, hfind]
          rfl
  | none =>
    rw [djangoModelSave_none_pk_none store car hpk] at h
    by_cases hc : slugConflict store (freshPk store) car.slug = true
    · rw [if_pos hc] at h
      exact (Except.noConfusion h)
    · rw [if_neg hc] at h
      simp only [Except.ok.injEq, Prod.mk.injEq] at h
      obtain ⟨hS, hcar⟩ := h
      refine ⟨freshPk store, ?_, ?_⟩
      · rw [← hcar]
      · rw [← hS, findRow_append_right _ _ _ (findRow_freshPk store)]
        have hrow : (toRow car (freshPk store)).pk = freshPk store := rfl
        unfold findRow
        rw [if_pos hrow]

lemma carSave_def (store : List CarRow) (car : CarInst) (uf : Option (List String))
    (now : Nat) :
    carSave store car uf now = djangoModelSave store (preparedCar store car uf now) uf := rfl

lemma statusWasChanged_congr (store : List CarRow) (c1 c2 : CarInst)
    (uf : Option (List String)) (hpk : c1.pk = c2.pk) (hst : c1.status = c2.status) :
    statusWasChanged store c1 uf = statusWasChanged store c2 uf := by
  unfold statusWasChanged
  rw [hpk, hst]

lemma preparedCar_pk (store : List CarRow) (car : CarInst) (uf : Option (List String))
    (now : Nat) : (preparedCar store car uf now).pk = car.pk := by
  unfold preparedCar
  rw [stampStep_pk, publishStep_pk, deriveSlugStep_pk]

lemma preparedCar_status (store : List CarRow) (car : CarInst)
    (uf : Option (List String)) (now : Nat) :
    (preparedCar store car uf now).status = car.status := by
  unfold preparedCar
  rw [stampStep_status, publishStep_status, deriveSlugStep_status]

lemma preparedCar_slug (store : List CarRow) (car : CarInst) (uf : Option (List String))
    (now : Nat) : (preparedCar store car uf now).slug = (deriveSlugStep car).slug := by
  unfold preparedCar
  rw [stampStep_slug, publishStep_slug]

lemma preparedCar_publishedAt (store : List CarRow) (car : CarInst)
    (uf : Option (List String)) (now : Nat) :
    (preparedCar store car uf now).publishedAt =
      if car.status = CarStatus.published ∧ car.publishedAt = none then some now
      else car.publishedAt := by
  unfold preparedCar
  rw [stampStep_publishedAt, publishStep_publishedAt, deriveSlugStep_status,
    deriveSlugStep_publishedAt]

lemma preparedCar_statusChangedAt (store : List CarRow) (car : CarInst)
    (uf : Option (List String)) (now : Nat) :
    (preparedCar store car uf now).statusChangedAt =
      if statusWasChanged store car uf then now else car.statusChangedAt := by
  unfold preparedCar
  rw [stampStep_statusChangedAt, publishStep_statusChangedAt, deriveSlugStep_statusChangedAt]
  rw [statusWasChanged_congr store (publishStep (deriveSlugStep car) now) car uf
    (by rw [publishStep_pk, deriveSlugStep_pk])
    (by rw [publishStep_status, deriveSlugStep_status])]

/-- Non-pk fields of the instance returned by a successful `Car.save`. -/
lemma carSave_ok_fields (store : List CarRow) (car : CarInst)
    (uf : Option (List String)) (now : Nat) (S2 : List CarRow) (car2 : CarInst)
    (h : carSave store car uf now = .ok (S2, car2)) :
    car2.status = car.status ∧
    car2.slug = (deriveSlugStep car).slug ∧
    car2.publishedAt =
      (if car.status = CarStatus.published ∧ car.publishedAt = none then some now
       else car.publishedAt) ∧
    car2.statusChangedAt =
      (if statusWasChanged store car uf then now else car.statusChangedAt) := by
  rw [carSave_def] at h
  rcases djangoModelSave_ok_inst _ _ _ _ _ h with hc | ⟨hnone, hc⟩
  · subst hc
    exact ⟨preparedCar_status store car uf now, preparedCar_slug store car uf now,
      preparedCar_publishedAt store car uf now, preparedCar_statusChangedAt store car uf now⟩
  · subst hc
    exact ⟨preparedCar_status store car uf now, preparedCar_slug store car uf now,
      preparedCar_publishedAt store car uf now, preparedCar_statusChangedAt store car uf now⟩

/-- A successful full `Car.save` leaves the returned instance retrievable by
its assigned primary key, every column agreeing with the instance. -/
lemma carSave_none_row (store : List CarRow) (car : CarInst) (now : Nat)
    (S2 : List CarRow) (car2 : CarInst)
    (h : carSave store car none now = .ok (S2, car2)) :
    ∃ p, car2.pk = some p ∧ findRow S2 p = some (toRow car2 p) := by
  rw [carSave_def] at h
  obtain ⟨p, hp, hrow⟩ := djangoModelSave_none_row _ _ _ _ h
  rcases djangoModelSave_ok_inst _ _ _ _ _ h with hc | ⟨hnone, hc⟩
  · subst hc
    exact ⟨p, hp, hrow⟩
  · subst hc
    exact ⟨p, hp, hrow⟩

/-- C3: for every Car, `published_at` is set to the current time exactly
once, on the first save whose persisted status equals `published` while
`published_at` is still unset; once `published_at` is non-null, the save
logic of any subsequent save, whatever the status, keeps it intact (and a
full save persists that value to the stored row). -/
theorem car_save_published_at_monotonic (store : List CarRow) (car : CarInst)
    (uf : Option (List String)) (now : Nat) :
    (∀ t S2 car2, car.publishedAt = some t →
        carSave store car uf now = .ok (S2, car2) → car2.publishedAt = some t) ∧
    (∀ S2 car2, car.publishedAt = none → car.status = CarStatus.published →
        carSave store car uf now = .ok (S2, car2) → car2.publishedAt = some now) ∧
    (∀ S2 car2, car.publishedAt = none → car.status ≠ CarStatus.published →
        carSave store car uf now = .ok (S2, car2) → car2.publishedAt = none) ∧
    (∀ S2 car2, carSave store car none now = .ok (S2, car2) →
        ∃ p r, car2.pk = some p ∧ findRow S2 p = some r ∧
          r.publishedAt = car2.publishedAt) := by
  refine ⟨?_, ?_, ?_, ?_⟩
  · intro t S2 car2 hpub h
    have hf := (carSave_ok_fields store car uf now S2 car2 h).2.2.1
    rw [hf, hpub, if_neg]
    intro hcond
    exact Option.noConfusion hcond.2
  · intro S2 car2 hpub hst h
    have hf := (carSave_ok_fields store car uf now S2 car2 h).2.2.1
    rw [hf, if_pos ⟨hst, hpub⟩]
  · intro S2 car2 hpub hst h
    have hf := (carSave_ok_fields store car uf now S2 car2 h).2.2.1
    rw [hf, if_neg, hpub]
    intro hcond
    exact hst hcond.1
  · intro S2 car2 h
    obtain ⟨p, hp, hrow⟩ := carSave_none_row store car now S2 car2 h
    exact ⟨p, toRow car2 p, hp, hrow, rfl⟩

/-- Witness for C3: re-saving the archived car keeps `published_at = 7`;
publishing the in-review car stamps `published_at = 9`. -/
theorem car_save_published_at_monotonic_witness :
    archivedCar.publishedAt = some 7 ∧
    ({ publishingCar with statusChangedAt := 9, publishedAt := some 9 } : CarInst).publishedAt
      = some 9 :=
  ⟨(car_save_published_at_monotonic archivedStore archivedCar none 9).1 7
      [toRow archivedCar 1] archivedCar rfl (by rfl),
   (car_save_published_at_monotonic publishingStore publishingCar none 9).2.1
      [toRow { publishingCar with statusChangedAt := 9, publishedAt := some 9 } 2]
      { publishingCar with statusChangedAt := 9, publishedAt := some 9 }
      rfl rfl (by rfl)⟩

/-- C8: for every Car saved without a supplied slug, the slug assigned at
save time equals the slugification of the make's slug (or slugified make
title if the make has none), a hyphen, the model's slug (or slugified model
title), a hyphen, then the VIN if present, else the record's own identifier
when already known, else empty; once a slug is set, a save never recomputes
or changes it. -/
theorem car_save_slug_derivation (store : List CarRow) (car : CarInst)
    (uf : Option (List String)) (now : Nat) (S2 : List CarRow) (car2 : CarInst)
    (h : carSave store car uf now = .ok (S2, car2)) :
    (car.slug = "" →
      car2.slug =
        djangoSlugify
          ((if car.makeSlug ≠ "" then car.makeSlug else djangoSlugify car.makeTitle) ++
            "-" ++
            (if car.modelSlug ≠ "" then car.modelSlug else djangoSlugify car.modelTitle) ++
            "-" ++
            (if car.vin ≠ "" then car.vin
             else match car.pk with
               | some p => toString p
               | none => ""))) ∧
    (car.slug ≠ "" → car2.slug = car.slug) := by
  have hf := (carSave_ok_fields store car uf now S2 car2 h).2.1
  rw [hf, deriveSlugStep_slug]
  constructor
  · intro hempty
    rw [if_pos hempty]
  · intro hne
    rw [if_neg hne]

/-- Witness for C8: creating `newVinCar` in an empty store derives
`audi-a4-wauzzz4`. -/
theorem car_save_slug_derivation_witness :
    ({ newVinCar with pk := some 0, slug := "audi-a4-wauzzz4", statusChangedAt := 5 } : CarInst).slug =
      djangoSlugify
        ((if newVinCar.makeSlug ≠ "" then newVinCar.makeSlug
          else djangoSlugify newVinCar.makeTitle) ++ "-" ++
          (if newVinCar.modelSlug ≠ "" then newVinCar.modelSlug
           else djangoSlugify newVinCar.modelTitle) ++ "-" ++
          (if newVinCar.vin ≠ "" then newVinCar.vin
           else match newVinCar.pk with
             | some p => toString p
             | none => "")) :=
  (car_save_slug_derivation [] newVinCar none 5
      [toRow { newVinCar with pk := some 0, slug := "audi-a4-wauzzz4", statusChangedAt := 5 } 0]
      { newVinCar with pk := some 0, slug := "audi-a4-wauzzz4", statusChangedAt := 5 }
      (by rfl)).1 rfl

lemma statusWasChanged_none_eq (store : List CarRow) (car : CarInst) :
    statusWasChanged store car none =
      (match car.pk with
       | none => true
       | some p =>
         match findRow store p with
         | none => false
         | some prev => decide (prev.status ≠ car.status)) := rfl

lemma statusWasChanged_some_mem (store : List CarRow) (car : CarInst)
    (fs : List String) (h : "status" ∈ fs) :
    statusWasChanged store car (some fs) = true := by
  have hne : fs ≠ [] := by
    rintro rfl
    cases h
  unfold statusWasChanged
  simp [hne, h]

lemma statusWasChanged_some_not_mem (store : List CarRow) (car : CarInst)
    (fs : List String) (hne : fs ≠ []) (h : ¬ "status" ∈ fs) :
    statusWasChanged store car (some fs) = false := by
  unfold statusWasChanged
  simp [hne, h]

lemma applyField_statusChangedAt (old : CarRow) (car : CarInst) (f : String)
    (h : f ≠ "status_changed_at") :
    (applyField old car f).statusChangedAt = old.statusChangedAt := by
  unfold applyField
  split_ifs <;> rfl

lemma applyField_pk (old : CarRow) (car : CarInst) (f : String) :
    (applyField old car f).pk = old.pk := by
  unfold applyField
  split_ifs <;> rfl

lemma mergeFields_pk (old : CarRow) (car : CarInst) (fs : List String) :
    (mergeFields old car fs).pk = old.pk := by
  induction fs generalizing old with
  | nil => rfl
  | cons f rest ih =>
    unfold mergeFields
    rw [List.foldl_cons]
    have := ih (applyField old car f)
    unfold mergeFields at this
    rw [this]
    exact applyField_pk old car f

lemma mergeFields_statusChangedAt (old : CarRow) (car : CarInst) (fs : List String)
    (h : ¬ "status_changed_at" ∈ fs) :
    (mergeFields old car fs).statusChangedAt = old.statusChangedAt := by
  induction fs generalizing old with
  | nil => rfl
  | cons f rest ih =>
    have hf : f ≠ "status_changed_at" := by
      intro hfe
      exact h (hfe ▸ List.mem_cons_self f rest)
    have hrest : ¬ "status_changed_at" ∈ rest := fun hm => h (List.mem_cons_of_mem f hm)
    unfold mergeFields
    rw [List.foldl_cons]
    have := ih (applyField old car f) hrest
    unfold mergeFields at this
    rw [this]
    exact applyField_statusChangedAt old car f hf

/-- Store shape of a successful partial `Model.save`: either the empty field
set skipped the write, or exactly the row of the saved pk was rewritten with
the merged columns. -/
lemma djangoModelSave_some_store (store : List CarRow) (car : CarInst)
    (fs : List String) (S2 : List CarRow) (car2 : CarInst)
    (h : djangoModelSave store car (some fs) = .ok (S2, car2)) :
    S2 = store ∨
      ∃ p old, car.pk = some p ∧ findRow store p = some old ∧
        S2 = store.map fun r => if r.pk = p then mergeFields old car fs else r := by
  rw [djangoModelSave_some_eq] at h
  by_cases h0 : fs = []
  · rw [if_pos h0] at h
    simp only [Except.ok.injEq, Prod.mk.injEq] at h
    exact Or.inl h.1.symm
  · rw [if_neg h0] at h
    by_cases h1 : fs.all (· ∈ carFieldNames)
    · rw [if_neg (not_not_intro h1)] at h
      cases hpk : car.pk with
      | none =>
        simp only [hpk] at h
        exact (Except.noConfusion h)
      | some p =>
        simp only [hpk] at h
        cases hfind : findRow store p with
        | none =>
          simp only [hfind] at h
          exact (Except.noConfusion h)
        | some old =>
          simp only [hfind] at h
          by_cases hc : slugConflict store p (mergeFields old car fs).slug = true
          · rw [if_pos hc] at h
            exact (Except.noConfusion h)
          · rw [if_neg hc] at h
            simp only [Except.ok.injEq, Prod.mk.injEq] at h
            exact Or.inr ⟨p, old, rfl, hfind, h.1.symm⟩
    · rw [if_pos h1] at h
      exact (Except.noConfusion h)

lemma preparedCar_vinFields (store : List CarRow) (car : CarInst)
    (uf : Option (List String)) (now : Nat) :
    (preparedCar store car uf now).statusChangedAt =
        (if statusWasChanged store car uf then now else car.statusChangedAt) ∧
    (preparedCar store car uf now).pk = car.pk :=
  ⟨preparedCar_statusChangedAt store car uf now, preparedCar_pk store car uf now⟩

/-- C1 (amended): for a save without a declared field set,
`status_changed_at` is stamped with the save time precisely when the pk is
unset or a stored row with a different status exists, and a full save
persists that in-memory value; for a save with a declared field set, the
stored `status_changed_at` column only changes when `"status_changed_at"`
itself is declared — whether or not `"status"` is — and, for a non-empty
declared set, the in-memory instance is stamped if and only if `"status"`
is declared. -/
theorem car_save_status_stamp (store : List CarRow) (car : CarInst) (now : Nat) :
    (∀ S2 car2, carSave store car none now = .ok (S2, car2) →
      (car.pk = none → car2.statusChangedAt = now) ∧
      (∀ p prev, car.pk = some p → findRow store p = some prev →
        (prev.status ≠ car.status → car2.statusChangedAt = now) ∧
        (prev.status = car.status → car2.statusChangedAt = car.statusChangedAt)) ∧
      (∀ p, car.pk = some p → findRow store p = none →
        car2.statusChangedAt = car.statusChangedAt) ∧
      (∃ p r, car2.pk = some p ∧ findRow S2 p = some r ∧
        r.statusChangedAt = car2.statusChangedAt)) ∧
    (∀ fs S2 car2, ¬ "status_changed_at" ∈ fs →
      carSave store car (some fs) now = .ok (S2, car2) →
      ∀ q, (findRow S2 q).map (fun r => r.statusChangedAt) =
        (findRow store q).map (fun r => r.statusChangedAt)) ∧
    (∀ fs S2 car2, "status" ∈ fs →
      carSave store car (some fs) now = .ok (S2, car2) →
      car2.statusChangedAt = now) ∧
    (∀ fs S2 car2, fs ≠ [] → ¬ "status" ∈ fs →
      carSave store car (some fs) now = .ok (S2, car2) →
      car2.statusChangedAt = car.statusChangedAt) := by
  refine ⟨?_, ?_, ?_, ?_⟩
  · intro S2 car2 h
    have hf := (carSave_ok_fields store car none now S2 car2 h).2.2.2
    rw [statusWasChanged_none_eq] at hf
    refine ⟨?_, ?_, ?_, ?_⟩
    · intro hpk
      rw [hpk] at hf
      simpa using hf
    · intro p prev hpk hfind
      rw [hpk] at hf
      simp only [hfind] at hf
      constructor
      · intro hdiff
        rw [hf, if_pos]
        exact decide_eq_true hdiff
      · intro heq
        rw [hf, if_neg]
        simp [heq]
    · intro p hpk hfind
      rw [hpk] at hf
      simp only [hfind] at hf
      simpa using hf
    · obtain ⟨p, hp, hrow⟩ := carSave_none_row store car now S2 car2 h
      exact ⟨p, toRow car2 p, hp, hrow, rfl⟩
  · intro fs S2 car2 hsca h
    intro q
    rw [carSave_def] at h
    rcases djangoModelSave_some_store _ _ _ _ _ h with hS | ⟨p, old, hpk, hfind, hS⟩
    · rw [hS]
    · subst hS
      have holdpk : old.pk = p := (findRow_mem store p old hfind).2
      have hmpk : (mergeFields old (preparedCar store car (some fs) now) fs).pk = p := by
        rw [mergeFields_pk]
        exact holdpk
      by_cases hq : q = p
      · subst hq
        rw [findRow_replace_self store q _ hmpk, hfind]
        have hm := mergeFields_statusChangedAt old (preparedCar store car (some fs) now) fs hsca
        simp [hm]
      · rw [findRow_replace_other store p q _ hmpk hq]
  · intro fs S2 car2 hst h
    have hf := (carSave_ok_fields store car (some fs) now S2 car2 h).2.2.2
    rw [statusWasChanged_some_mem store car fs hst] at hf
    simpa using hf
  · intro fs S2 car2 hne hst h
    have hf := (carSave_ok_fields store car (some fs) now S2 car2 h).2.2.2
    rw [statusWasChanged_some_not_mem store car fs hne hst] at hf
    simpa using hf

/-- Witness for C1 (amended), exercising all four parts: a full save with a
genuinely different status stamps the returned instance with the save time;
a partial save declaring only `price` leaves the stored stamp untouched and
also leaves the in-memory stamp untouched; a partial save declaring
`status` stamps the in-memory instance. -/
theorem car_save_status_stamp_witness :
    ({ publishingCar with statusChangedAt := 9, publishedAt := some 9 } : CarInst).statusChangedAt = 9 ∧
    (findRow [reviewPrevRow] 1).map (fun r => r.statusChangedAt) =
      (findRow reviewStore 1).map (fun r => r.statusChangedAt) ∧
    ({ reviewCar with statusChangedAt := 5 } : CarInst).statusChangedAt = 5 ∧
    reviewCar.statusChangedAt = reviewCar.statusChangedAt :=
  ⟨(((car_save_status_stamp publishingStore publishingCar 9).1
        [toRow { publishingCar with statusChangedAt := 9, publishedAt := some 9 } 2]
        { publishingCar with statusChangedAt := 9, publishedAt := some 9 }
        (by rfl)).2.1 2 (toRow { publishingCar with status := CarStatus.review } 2)
        rfl (by rfl)).1 (by decide),
   (car_save_status_stamp reviewStore reviewCar 5).2.1 ["price"] [reviewPrevRow] reviewCar
     (by decide) (by rfl) 1,
   (car_save_status_stamp reviewStore reviewCar 5).2.2.1 ["status"] [{ reviewPrevRow with status := CarStatus.review }]
     { reviewCar with statusChangedAt := 5 } (by decide) (by rfl),
   (car_save_status_stamp reviewStore reviewCar 5).2.2.2 ["price"] [reviewPrevRow] reviewCar
     (by decide) (by decide) (by rfl)⟩

/-- Counterexample to C1 as stated: saving `reviewCar` (stored status
draft, in-memory status review) with `update_fields=["status"]` persists the
different status `review`, yet the stored `status_changed_at` keeps its old
value 0 instead of the save time 5 — the column is not in the declared field
set, so Django does not write it.  The claim's "updated if and only if the
status being persisted differs from the immediately prior persisted status"
therefore fails at this input. -/
theorem car_save_status_stamp_counterexample :
    carSave reviewStore reviewCar (some ["status"]) 5 =
      .ok ([{ reviewPrevRow with status := CarStatus.review }],
        { reviewCar with statusChangedAt := 5 }) ∧
    reviewPrevRow.status ≠ CarStatus.review ∧
    ({ reviewPrevRow with status := CarStatus.review } : CarRow).statusChangedAt = 0 ∧
    (0 : Nat) ≠ 5 :=
  ⟨by rfl, by decide, by rfl, by decide⟩

/-- C9 (amended): on a save without a declared field set, absence of a prior
record counts as "changed" only through an unassigned pk: a pk-less save
stamps `status_changed_at` with the save time, while a save whose pk is set
but matches no stored row leaves `status_changed_at` untouched (the row is
inserted with the old value). -/
theorem car_save_first_save_stamp (store : List CarRow) (car : CarInst) (now : Nat) :
    (∀ S2 car2, car.pk = none → carSave store car none now = .ok (S2, car2) →
      car2.statusChangedAt = now) ∧
    (∀ p S2 car2, car.pk = some p → findRow store p = none →
      carSave store car none now = .ok (S2, car2) →
      car2.statusChangedAt = car.statusChangedAt ∧
      findRow S2 p = some (toRow car2 p)) := by
  constructor
  · intro S2 car2 hpk h
    have hf := (carSave_ok_fields store car none now S2 car2 h).2.2.2
    rw [statusWasChanged_none_eq, hpk] at hf
    simpa using hf
  · intro p S2 car2 hpk hfind h
    have hf := (carSave_ok_fields store car none now S2 car2 h).2.2.2
    rw [statusWasChanged_none_eq, hpk] at hf
    simp only [hfind] at hf
    refine ⟨by simpa using hf, ?_⟩
    obtain ⟨q, hq, hrow⟩ := carSave_none_row store car now S2 car2 h
    have hcar2pk : car2.pk = car.pk := by
      rw [carSave_def] at h
      rcases djangoModelSave_ok_inst _ _ _ _ _ h with hc | ⟨hnone, hc⟩
      · rw [hc, preparedCar_pk]
      · rw [preparedCar_pk] at hnone
        rw [hpk] at hnone
        cases hnone
    have hqp : q = p := by
      rw [hcar2pk, hpk] at hq
      exact (Option.some.inj hq).symm
    rw [← hqp]
    exact hrow

/-- Witness for C9 (amended): creating `newVinCar` (no pk) stamps the save
time 5; saving `orphanCar` (pk 1, empty store) keeps its old stamp and
inserts the row. -/
theorem car_save_first_save_stamp_witness :
    ({ newVinCar with pk := some 0, slug := "audi-a4-wauzzz4", statusChangedAt := 5 } : CarInst).statusChangedAt = 5 ∧
    (orphanCar.statusChangedAt = orphanCar.statusChangedAt ∧
      findRow [toRow orphanCar 1] 1 = some (toRow orphanCar 1)) :=
  ⟨(car_save_first_save_stamp [] newVinCar 5).1
      [toRow { newVinCar with pk := some 0, slug := "audi-a4-wauzzz4", statusChangedAt := 5 } 0]
      { newVinCar with pk := some 0, slug := "audi-a4-wauzzz4", statusChangedAt := 5 }
      rfl (by rfl),
   (car_save_first_save_stamp [] orphanCar 5).2 1 [toRow orphanCar 1] orphanCar
      rfl rfl (by rfl)⟩

/-- Counterexample to C9 as stated: `orphanCar` has pk 1 but the store holds
no row under that identifier; the claim says this save must count the status
as changed and set `status_changed_at` to the save time 5, yet the code
leaves the stamp at its old value 0 (both in memory and in the inserted
row), because `previous_status is None` fails its
`previous_status is not None` guard. -/
theorem car_save_first_save_stamp_counterexample :
    findRow ([] : List CarRow) 1 = none ∧
    carSave [] orphanCar none 5 = .ok ([toRow orphanCar 1], orphanCar) ∧
    orphanCar.statusChangedAt = 0 ∧ (0 : Nat) ≠ 5 ∧
    (findRow [toRow orphanCar 1] 1).map (fun r => r.statusChangedAt) = some 0 :=
  ⟨rfl, by rfl, rfl, by decide, by rfl⟩

lemma slugConflict_of_mem (store : List CarRow) (p : Nat) (s : String) (r : CarRow)
    (hr : r ∈ store) (hpk : r.pk ≠ p) (hslug : r.slug = s) :
    slugConflict store p s = true := by
  unfold slugConflict
  rw [List.any_eq_true]
  refine ⟨r, hr, ?_⟩
  simp [hpk, hslug]

/-- C10: for every Car created without a supplied slug and with an empty
VIN, the record's own identifier is still unassigned when the slug is
derived, so the candidate is built from the make and model slugs alone
(`slugify` trims the trailing hyphen); consequently a second such creation
with the same make and model derives the identical candidate and fails with
the slug uniqueness violation. -/
theorem car_save_duplicate_empty_vin (store : List CarRow) (c1 c2 : CarInst)
    (now1 now2 : Nat) (S1 : List CarRow) (c1s : CarInst)
    (h1pk : c1.pk = none) (h1vin : c1.vin = "") (h1slug : c1.slug = "")
    (h2pk : c2.pk = none) (h2vin : c2.vin = "") (h2slug : c2.slug = "")
    (hms : c2.makeSlug = c1.makeSlug) (hmt : c2.makeTitle = c1.makeTitle)
    (hns : c2.modelSlug = c1.modelSlug) (hnt : c2.modelTitle = c1.modelTitle)
    (hsave1 : carSave store c1 none now1 = .ok (S1, c1s)) :
    c1s.slug =
      djangoSlugify
        ((if c1.makeSlug ≠ "" then c1.makeSlug else djangoSlugify c1.makeTitle) ++ "-" ++
         (if c1.modelSlug ≠ "" then c1.modelSlug else djangoSlugify c1.modelTitle) ++ "-" ++ "") ∧
    carSave S1 c2 none now2 = .error SaveError.constraintViolation := by
  have hslug1 : c1s.slug =
      djangoSlugify
        ((if c1.makeSlug ≠ "" then c1.makeSlug else djangoSlugify c1.makeTitle) ++ "-" ++
         (if c1.modelSlug ≠ "" then c1.modelSlug else djangoSlugify c1.modelTitle) ++ "-" ++ "") := by
    have hf := (carSave_ok_fields store c1 none now1 S1 c1s hsave1).2.1
    rw [hf, deriveSlugStep_slug, if_pos h1slug, h1vin, h1pk]
    simp
  refine ⟨hslug1, ?_⟩
  obtain ⟨p, hp, hrow⟩ := carSave_none_row store c1 now1 S1 c1s hsave1
  have hmem := (findRow_mem S1 p (toRow c1s p) hrow).1
  have hlt : (toRow c1s p).pk < freshPk S1 := pk_lt_freshPk S1 _ hmem
  have hprep2pk : (preparedCar S1 c2 none now2).pk = none := by
    rw [preparedCar_pk]
    exact h2pk
  have hprep2slug : (preparedCar S1 c2 none now2).slug = c1s.slug := by
    rw [preparedCar_slug, deriveSlugStep_slug, if_pos h2slug, h2vin, h2pk,
      hms, hmt, hns, hnt, hslug1]
    simp
  have hconf : slugConflict S1 (freshPk S1) (preparedCar S1 c2 none now2).slug = true := by
    apply slugConflict_of_mem S1 (freshPk S1) _ (toRow c1s p) hmem (Nat.ne_of_lt hlt)
    rw [hprep2slug]
    rfl
  rw [carSave_def, djangoModelSave_none_pk_none S1 _ hprep2pk, if_pos hconf]

/-- Witness for C10: creating `teslaCar` twice; the first creation derives
`tesla-model-s`, the second fails with the uniqueness violation. -/
theorem car_save_duplicate_empty_vin_witness :
    ({ teslaCar with pk := some 0, slug := "tesla-model-s", statusChangedAt := 6 } : CarInst).slug =
      djangoSlugify
        ((if teslaCar.makeSlug ≠ "" then teslaCar.makeSlug else djangoSlugify teslaCar.makeTitle) ++ "-" ++
         (if teslaCar.modelSlug ≠ "" then teslaCar.modelSlug else djangoSlugify teslaCar.modelTitle) ++ "-" ++ "") ∧
    carSave [toRow { teslaCar with pk := some 0, slug := "tesla-model-s", statusChangedAt := 6 } 0]
        teslaCar none 7 = .error SaveError.constraintViolation :=
  car_save_duplicate_empty_vin [] teslaCar teslaCar 6 7
    [toRow { teslaCar with pk := some 0, slug := "tesla-model-s", statusChangedAt := 6 } 0]
    { teslaCar with pk := some 0, slug := "tesla-model-s", statusChangedAt := 6 }
    rfl rfl rfl rfl rfl rfl rfl rfl rfl rfl (by rfl)

/-- C6: whenever both a make and a model are specified for a car (directly
or via partial update against the existing record), the save is rejected
with `ValidationError` unless `model.make == make`, regardless of which
other fields are also being changed; matching pairs pass through. -/
theorem serializer_validate_cross_reference (attrs : CarAttrs)
    (inst : Option CarBoundInst) :
    (∀ mk mo, resolvedMake attrs inst = some mk → resolvedModel attrs inst = some mo →
      mo.makeId ≠ mk.id →
      carSerializerValidate attrs inst = .error SaveError.validationError) ∧
    (∀ mk mo, resolvedMake attrs inst = some mk → resolvedModel attrs inst = some mo →
      mo.makeId = mk.id →
      carSerializerValidate attrs inst = .ok attrs) := by
  constructor
  · intro mk mo hmk hmo hne
    unfold carSerializerValidate
    simp only [hmk, hmo]
    rw [if_pos hne]
  · intro mk mo hmk hmo heq
    unfold carSerializerValidate
    simp only [hmk, hmo]
    rw [if_neg (not_not_intro heq)]

/-- Witness for C6: model 5 belongs to make 2, the payload declares make 1
and also changes the price; mismatching pairs are rejected, and fixing the
make id passes. -/
theorem serializer_validate_cross_reference_witness :
    carSerializerValidate
        { make := some { id := 1 }, model := some { id := 5, makeId := 2 },
          others := [("price", "10000")] } none =
      .error SaveError.validationError ∧
    carSerializerValidate
        { make := some { id := 2 }, model := some { id := 5, makeId := 2 },
          others := [("price", "10000")] } none =
      .ok { make := some { id := 2 }, model := some { id := 5, makeId := 2 },
            others := [("price", "10000")] } :=
  ⟨(serializer_validate_cross_reference
      { make := some { id := 1 }, model := some { id := 5, makeId := 2 },
        others := [("price", "10000")] } none).1
      { id := 1 } { id := 5, makeId := 2 } rfl rfl (by decide),
   (serializer_validate_cross_reference
      { make := some { id := 2 }, model := some { id := 5, makeId := 2 },
        others := [("price", "10000")] } none).2
      { id := 2 } { id := 5, makeId := 2 } rfl rfl rfl⟩

/-- C7: a CarImage save whose fresh payload cannot be decoded fails with the
typed `UnsupportedImageFormat` error, the write is aborted entirely, and the
store is left unchanged — no partial row is created. -/
theorem carimage_undecodable_aborts (store : List CarImageRow) (img : CarImageInst)
    (file : CarImageFile) (himg : img.image = some file)
    (hcom : file.committed = false) (hcontent : file.content = none) :
    carImageSave store img = .error ImgError.unsupportedImageFormat ∧
    carImageSaveStore store img = store := by
  have hstep : carImageStep1 img = .error ImgError.unsupportedImageFormat := by
    unfold carImageStep1
    simp only [himg]
    rw [hcom, hcontent]
    rfl
  have hsave : carImageSave store img = .error ImgError.unsupportedImageFormat := by
    unfold carImageSave
    rw [hstep]
  refine ⟨hsave, ?_⟩
  unfold carImageSaveStore
  rw [hsave]

/-- Witness for C7: an uncommitted upload with undecodable bytes against a
one-row store. -/
theorem carimage_undecodable_aborts_witness :
    carImageSave [toImageRow soloImage 1] brokenUpload =
      .error ImgError.unsupportedImageFormat ∧
    carImageSaveStore [toImageRow soloImage 1] brokenUpload = [toImageRow soloImage 1] :=
  carimage_undecodable_aborts [toImageRow soloImage 1] brokenUpload
    { name := "broken.bin", content := none, committed := false } rfl rfl rfl

lemma map_id_of {α : Type} (l : List α) (f : α → α) (h : ∀ a ∈ l, f a = a) :
    l.map f = l := by
  induction l with
  | nil => rfl
  | cons x xs ih =>
    rw [List.map_cons, h x (List.mem_cons_self x xs),
      ih fun a ha => h a (List.mem_cons_of_mem x ha)]

lemma findImage_none_mem (store : List CarImageRow) (p : Nat)
    (h : findImage store p = none) : ∀ r ∈ store, r.pk ≠ p := by
  induction store with
  | nil =>
    intro r hr
    cases hr
  | cons x xs ih =>
    unfold findImage at h
    intro r hr
    by_cases hx : x.pk = p
    · rw [if_pos hx] at h
      cases h
    · rw [if_neg hx] at h
      rcases List.mem_cons.mp hr with hr | hr
      · subst hr
        exact hx
      · exact ih h r hr

lemma findImage_isSome_of_mem (store : List CarImageRow) (p : Nat) (r : CarImageRow)
    (hr : r ∈ store) (hpk : r.pk = p) : (findImage store p).isSome = true := by
  induction store with
  | nil => cases hr
  | cons x xs ih =>
    unfold findImage
    by_cases hx : x.pk = p
    · rw [if_pos hx]
      rfl
    · rw [if_neg hx]
      rcases List.mem_cons.mp hr with h | h
      · subst h
        exact absurd hpk hx
      · exact ih h

lemma imagePk_lt_fresh (store : List CarImageRow) (r : CarImageRow) (h : r ∈ store) :
    r.pk < freshImagePk store := by
  induction store with
  | nil => cases h
  | cons x xs ih =>
    unfold freshImagePk
    rcases List.mem_cons.mp h with h | h
    · subst h
      simp only [List.foldr_cons]
      omega
    · have := ih h
      unfold freshImagePk at this
      simp only [List.foldr_cons]
      omega

lemma carImageStep1_committed (img : CarImageInst) (h : imageCommitted img = true) :
    carImageStep1 img = .ok img := by
  unfold imageCommitted at h
  unfold carImageStep1
  cases himg : img.image with
  | none => rfl
  | some f =>
    simp only [himg] at h ⊢
    rw [if_pos h]

lemma carImageStep1_fields (img img1 : CarImageInst)
    (h : carImageStep1 img = .ok img1) :
    img1.pk = img.pk ∧ img1.carId = img.carId ∧ img1.caption = img.caption ∧
    img1.isPrimary = img.isPrimary ∧ img1.ordering = img.ordering := by
  unfold carImageStep1 at h
  cases himg : img.image with
  | none =>
    simp only [himg] at h
    simp only [Except.ok.injEq] at h
    subst h
    exact ⟨rfl, rfl, rfl, rfl, rfl⟩
  | some f =>
    simp only [himg] at h
    by_cases hcom : f.committed = true
    · rw [if_pos hcom] at h
      simp only [Except.ok.injEq] at h
      subst h
      exact ⟨rfl, rfl, rfl, rfl, rfl⟩
    · rw [if_neg hcom] at h
      cases hopt : optimise_car_image f.name f.content with
      | error e =>
        simp only [hopt] at h
        exact (Except.noConfusion h)
      | ok pair =>
        simp only [hopt] at h
        simp only [Except.ok.injEq] at h
        subst h
        exact ⟨rfl, rfl, rfl, rfl, rfl⟩

/-- Successful `CarImage.save`s decompose into the three steps. -/
lemma carImageSave_ok_shape (S : List CarImageRow) (img : CarImageInst)
    (S2 : List CarImageRow) (img2 : CarImageInst)
    (h : carImageSave S img = .ok (S2, img2)) :
    ∃ img1, carImageStep1 img = .ok img1 ∧
      img2 = { img1 with pk := some (carImagePersist S img1).2 } ∧
      S2 = (if img2.isPrimary then
              clearSiblings (carImagePersist S img1).1 img2.carId (carImagePersist S img1).2
            else (carImagePersist S img1).1) := by
  unfold carImageSave at h
  cases hstep : carImageStep1 img with
  | error e =>
    simp only [hstep] at h
    exact (Except.noConfusion h)
  | ok img1 =>
    simp only [hstep] at h
    simp only [Except.ok.injEq, Prod.mk.injEq] at h
    exact ⟨img1, rfl, h.2.symm, by rw [← h.2, ← h.1]⟩

/-- Every row of the persisted store is the saved row or an original row. -/
lemma carImagePersist_rows (store : List CarImageRow) (img : CarImageInst)
    (r : CarImageRow) (hr : r ∈ (carImagePersist store img).1) :
    r = toImageRow img (carImagePersist store img).2 ∨ r ∈ store := by
  unfold carImagePersist at hr ⊢
  cases hpk : img.pk with
  | some p =>
    simp only [hpk] at hr ⊢
    by_cases hf : (findImage store p).isSome = true
    · rw [if_pos hf] at hr ⊢
      simp only [List.mem_map] at hr
      obtain ⟨r0, hr0, hmap⟩ := hr
      by_cases hx : r0.pk = p
      · rw [if_pos hx] at hmap
        exact Or.inl hmap.symm
      · rw [if_neg hx] at hmap
        exact Or.inr (hmap ▸ hr0)
    · rw [if_neg hf] at hr ⊢
      rcases List.mem_append.mp hr with hm | hm
      · exact Or.inr hm
      · rcases List.mem_singleton.mp hm with rfl
        exact Or.inl rfl
  | none =>
    simp only [hpk] at hr ⊢
    rcases List.mem_append.mp hr with hm | hm
    · exact Or.inr hm
    · rcases List.mem_singleton.mp hm with rfl
      exact Or.inl rfl

/-- In the persisted store, the saved primary key identifies exactly the
saved row. -/
lemma carImagePersist_pk_eq (store : List CarImageRow) (img : CarImageInst)
    (r : CarImageRow) (hr : r ∈ (carImagePersist store img).1)
    (hpkr : r.pk = (carImagePersist store img).2) :
    r = toImageRow img (carImagePersist store img).2 := by
  unfold carImagePersist at hr hpkr ⊢
  cases hpk : img.pk with
  | some p =>
    simp only [hpk] at hr hpkr ⊢
    by_cases hf : (findImage store p).isSome = true
    · rw [if_pos hf] at hr hpkr ⊢
      simp only [List.mem_map] at hr
      obtain ⟨r0, hr0, hmap⟩ := hr
      by_cases hx : r0.pk = p
      · rw [if_pos hx] at hmap
        exact hmap.symm
      · rw [if_neg hx] at hmap
        subst hmap
        exact absurd hpkr hx
    · rw [if_neg hf] at hr hpkr ⊢
      rcases List.mem_append.mp hr with hm | hm
      · have hnone : findImage store p = none := by
          cases hfi : findImage store p with
          | none => rfl
          | some x =>
            rw [hfi] at hf
            exact absurd rfl hf
        exact absurd hpkr (findImage_none_mem store p hnone r hm)
      · exact List.mem_singleton.mp hm
  | none =>
    simp only [hpk] at hr hpkr ⊢
    rcases List.mem_append.mp hr with hm | hm
    · exact absurd hpkr (Nat.ne_of_lt (imagePk_lt_fresh store r hm))
    · exact List.mem_singleton.mp hm

/-- Rows other than the saved one survive persisting untouched. -/
lemma carImagePersist_keep (store : List CarImageRow) (img : CarImageInst)
    (r : CarImageRow) (hr : r ∈ store) (hpkr : r.pk ≠ (carImagePersist store img).2) :
    r ∈ (carImagePersist store img).1 := by
  unfold carImagePersist at hpkr ⊢
  cases hpk : img.pk with
  | some p =>
    simp only [hpk] at hpkr ⊢
    by_cases hf : (findImage store p).isSome = true
    · rw [if_pos hf] at hpkr ⊢
      refine List.mem_map.mpr ⟨r, hr, ?_⟩
      rw [if_neg hpkr]
    · rw [if_neg hf] at hpkr ⊢
      exact List.mem_append.mpr (Or.inl hr)
  | none =>
    simp only [hpk] at hpkr ⊢
    exact List.mem_append.mpr (Or.inl hr)

/-- Surviving primary rows of `clearSiblings` belonged to the store, and any
of them sharing the saved car must be the saved row itself. -/
lemma clearSiblings_primary (S1 : List CarImageRow) (c p : Nat) (r : CarImageRow)
    (hr : r ∈ clearSiblings S1 c p) (hprim : r.isPrimary = true) :
    r ∈ S1 ∧ (r.carId = c → r.pk = p) := by
  obtain ⟨r0, hr0, hre⟩ := List.mem_map.mp hr
  by_cases hcond : r0.carId = c ∧ r0.isPrimary = true ∧ r0.pk ≠ p
  · rw [if_pos hcond] at hre
    rw [← hre] at hprim
    cases hprim
  · rw [if_neg hcond] at hre
    subst hre
    refine ⟨hr0, fun hc => ?_⟩
    by_contra hne
    exact hcond ⟨hc, hprim, hne⟩

/-- A successful `CarImage.save` preserves the single-primary invariant. -/
lemma carImageSave_preserves (S : List CarImageRow) (img : CarImageInst)
    (S2 : List CarImageRow) (img2 : CarImageInst)
    (h : carImageSave S img = .ok (S2, img2)) (hInv : atMostOnePrimary S) :
    atMostOnePrimary S2 := by
  obtain ⟨img1, hstep, himg2, hS2⟩ := carImageSave_ok_shape S img S2 img2 h
  have hcarid : img2.carId = img1.carId := by
    rw [himg2]
  have hprim12 : img2.isPrimary = img1.isPrimary := by
    rw [himg2]
  have hsavedcar : (toImageRow img1 (carImagePersist S img1).2).carId = img2.carId := by
    rw [hcarid]
    rfl
  by_cases hprim : img2.isPrimary = true
  · rw [if_pos hprim] at hS2
    intro r hr q hq hcar hrp hqp
    rw [hS2] at hr hq
    obtain ⟨hrS1, hrc⟩ := clearSiblings_primary _ _ _ r hr hrp
    obtain ⟨hqS1, hqc⟩ := clearSiblings_primary _ _ _ q hq hqp
    by_cases hc : r.carId = img2.carId
    · rw [hrc hc, hqc (hcar ▸ hc)]
    · rcases carImagePersist_rows S img1 r hrS1 with hre | hrS
      · rw [hre] at hc
        exact absurd hsavedcar hc
      · rcases carImagePersist_rows S img1 q hqS1 with hqe | hqS
        · have hqcar : q.carId = img2.carId := by
            rw [hqe]
            exact hsavedcar
          exact absurd (hcar.trans hqcar) hc
        · exact hInv r hrS q hqS hcar hrp hqp
  · rw [if_neg hprim] at hS2
    intro r hr q hq hcar hrp hqp
    rw [hS2] at hr hq
    have hnotsaved : (toImageRow img1 (carImagePersist S img1).2).isPrimary ≠ true := by
      intro hx
      rw [hprim12] at hprim
      exact hprim hx
    rcases carImagePersist_rows S img1 r hr with hre | hrS
    · exact absurd (hre ▸ hrp) hnotsaved
    · rcases carImagePersist_rows S img1 q hq with hqe | hqS
      · exact absurd (hqe ▸ hqp) hnotsaved
      · exact hInv r hrS q hqS hcar hrp hqp

/-- Any sequence of `CarImage.save`s starting from the empty store keeps at
most one primary image per car. -/
lemma saveImagesAll_invariant (ops : List CarImageInst) :
    atMostOnePrimary (saveImagesAll ops) := by
  unfold saveImagesAll
  have hgen : ∀ s, atMostOnePrimary s →
      atMostOnePrimary (ops.foldl carImageSaveStore s) := by
    induction ops with
    | nil =>
      intro s hs
      exact hs
    | cons op rest ih =>
      intro s hs
      rw [List.foldl_cons]
      apply ih
      unfold carImageSaveStore
      cases hsave : carImageSave s op with
      | error e => exact hs
      | ok pair => exact carImageSave_preserves s op pair.1 pair.2 (by rw [hsave]) hs
  apply hgen
  intro r hr
  cases hr

lemma carImageInst_eta_pk (img : CarImageInst) (q0 : Nat) (h : img.pk = some q0) :
    ({ img with pk := some q0 } : CarImageInst) = img := by
  cases img with
  | mk a b c d e f =>
    cases h
    rfl

lemma clearSiblings_elem_fields (r0 : CarImageRow) (c p : Nat) :
    (if r0.carId = c ∧ r0.isPrimary = true ∧ r0.pk ≠ p
      then ({ r0 with isPrimary := false } : CarImageRow) else r0).pk = r0.pk ∧
    (if r0.carId = c ∧ r0.isPrimary = true ∧ r0.pk ≠ p
      then ({ r0 with isPrimary := false } : CarImageRow) else r0).carId = r0.carId ∧
    (if r0.carId = c ∧ r0.isPrimary = true ∧ r0.pk ≠ p
      then ({ r0 with isPrimary := false } : CarImageRow) else r0).image = r0.image ∧
    (if r0.carId = c ∧ r0.isPrimary = true ∧ r0.pk ≠ p
      then ({ r0 with isPrimary := false } : CarImageRow) else r0).caption = r0.caption ∧
    (if r0.carId = c ∧ r0.isPrimary = true ∧ r0.pk ≠ p
      then ({ r0 with isPrimary := false } : CarImageRow) else r0).ordering = r0.ordering := by
  split_ifs <;> exact ⟨rfl, rfl, rfl, rfl, rfl⟩

/-- C2: for CarImages with committed (or absent) payloads, a save always
succeeds and: preserves the at-most-one-primary invariant; when saved with
`is_primary = true`, leaves exactly the saved row primary among the images
of its car; touches no field other than `is_primary` on the other rows;
is a complete no-op when the saved image is already stored as the sole
primary of its car; and any sequence of saves from the empty store
maintains the invariant. -/
theorem carimage_single_primary (S : List CarImageRow) (img : CarImageInst)
    (hcom : imageCommitted img = true) :
    ∃ S2 img2 p, carImageSave S img = .ok (S2, img2) ∧ img2.pk = some p ∧
      (atMostOnePrimary S → atMostOnePrimary S2) ∧
      (img.isPrimary = true → ∀ r ∈ S2, r.carId = img.carId →
        (r.isPrimary = true ↔ r.pk = p)) ∧
      (∀ r ∈ S, r.pk ≠ p → ∃ q, q ∈ S2 ∧ q.pk = r.pk ∧ q.carId = r.carId ∧
        q.image = r.image ∧ q.caption = r.caption ∧ q.ordering = r.ordering) ∧
      (∀ q0, img.pk = some q0 → (S.map fun r => r.pk).Nodup → toImageRow img q0 ∈ S →
        img.isPrimary = true →
        (∀ r ∈ S, r.carId = img.carId → r.isPrimary = true → r.pk = q0) →
        S2 = S ∧ img2 = img) ∧
      (∀ ops : List CarImageInst, atMostOnePrimary (saveImagesAll ops)) := by
  have hstep : carImageStep1 img = .ok img := carImageStep1_committed img hcom
  obtain ⟨S2, img2, hsave⟩ : ∃ S2 img2, carImageSave S img = .ok (S2, img2) := by
    unfold carImageSave
    rw [hstep]
    exact ⟨_, _, rfl⟩
  obtain ⟨img1, hstep2, himg2, hS2⟩ := carImageSave_ok_shape S img S2 img2 hsave
  have himg1 : img1 = img := by
    rw [hstep] at hstep2
    exact (Except.ok.inj hstep2).symm
  rw [himg1] at himg2 hS2
  have hpr2 : img2.isPrimary = img.isPrimary := by
    rw [himg2]
  have hcar2 : img2.carId = img.carId := by
    rw [himg2]
  refine ⟨S2, img2, (carImagePersist S img).2, hsave, by rw [himg2], ?_, ?_, ?_, ?_,
    fun ops => saveImagesAll_invariant ops⟩
  · intro hInv
    exact carImageSave_preserves S img S2 img2 hsave hInv
  · intro hprim r hr hcar
    have hprim2 : img2.isPrimary = true := by
      rw [hpr2]
      exact hprim
    rw [hS2, if_pos hprim2] at hr
    constructor
    · intro hrp
      apply (clearSiblings_primary _ _ _ r hr hrp).2
      rw [hcar2]
      exact hcar
    · intro hpk
      obtain ⟨r0, hr0, hre⟩ := List.mem_map.mp hr
      have hfields := clearSiblings_elem_fields r0 img2.carId (carImagePersist S img).2
      have hrpk : r.pk = r0.pk := by
        rw [← hre]
        exact hfields.1
      have hr0pk : r0.pk = (carImagePersist S img).2 := by
        rw [← hrpk]
        exact hpk
      have hr0saved : r0 = toImageRow img (carImagePersist S img).2 :=
        carImagePersist_pk_eq S img r0 hr0 hr0pk
      have hr0prim : r0.isPrimary = true := by
        rw [hr0saved]
        exact hprim
      have hnc : ¬(r0.carId = img2.carId ∧ r0.isPrimary = true ∧
          r0.pk ≠ (carImagePersist S img).2) := by
        rintro ⟨h1, h2, h3⟩
        exact h3 hr0pk
      rw [if_neg hnc] at hre
      rw [← hre]
      exact hr0prim
  · intro r hr hpk
    have hrS1 : r ∈ (carImagePersist S img).1 := carImagePersist_keep S img r hr hpk
    by_cases hprim2 : img2.isPrimary = true
    · rw [hS2, if_pos hprim2]
      have hfields := clearSiblings_elem_fields r img2.carId (carImagePersist S img).2
      refine ⟨_, List.mem_map.mpr ⟨r, hrS1, rfl⟩, hfields.1, hfields.2.1, hfields.2.2.1,
        hfields.2.2.2.1, hfields.2.2.2.2⟩
    · rw [hS2, if_neg hprim2]
      exact ⟨r, hrS1, rfl, rfl, rfl, rfl, rfl⟩
  · intro q0 hq0 hnd hmem hprim hsole
    have hprim2 : img2.isPrimary = true := by
      rw [hpr2]
      exact hprim
    have hfind : (findImage S q0).isSome = true :=
      findImage_isSome_of_mem S q0 (toImageRow img q0) hmem rfl
    have hpersist : carImagePersist S img =
        (S.map fun r => if r.pk = q0 then toImageRow img q0 else r, q0) := by
      unfold carImagePersist
      simp only [hq0]
      rw [if_pos hfind]
    have hS1id : (S.map fun r => if r.pk = q0 then toImageRow img q0 else r) = S := by
      apply map_id_of
      intro a ha
      by_cases hax : a.pk = q0
      · have haeq : a = toImageRow img q0 :=
          List.inj_on_of_nodup_map hnd ha hmem (by rw [hax]; rfl)
        rw [if_pos hax, ← haeq]
      · rw [if_neg hax]
    have hp : (carImagePersist S img).2 = q0 := by
      rw [hpersist]
    have hS1 : (carImagePersist S img).1 = S := by
      rw [hpersist]
      exact hS1id
    constructor
    · rw [hS2, if_pos hprim2, hS1, hp, hcar2]
      unfold clearSiblings
      apply map_id_of
      intro a ha
      have hnc : ¬(a.carId = img.carId ∧ a.isPrimary = true ∧ a.pk ≠ q0) := by
        rintro ⟨h1, h2, h3⟩
        exact h3 (hsole a ha h1 h2)
      rw [if_neg hnc]
    · rw [himg2, hp]
      exact carImageInst_eta_pk img q0 hq0

/-- Witness for C2: saving `secondImage` (primary) next to the stored
primary `soloImage` of the same car. -/
theorem carimage_single_primary_witness :
    ∃ S2 img2 p,
      carImageSave [toImageRow soloImage 1] secondImage = .ok (S2, img2) ∧
      img2.pk = some p ∧
      (atMostOnePrimary [toImageRow soloImage 1] → atMostOnePrimary S2) ∧
      (secondImage.isPrimary = true → ∀ r ∈ S2, r.carId = secondImage.carId →
        (r.isPrimary = true ↔ r.pk = p)) ∧
      (∀ r ∈ [toImageRow soloImage 1], r.pk ≠ p → ∃ q, q ∈ S2 ∧ q.pk = r.pk ∧
        q.carId = r.carId ∧ q.image = r.image ∧ q.caption = r.caption ∧
        q.ordering = r.ordering) ∧
      (∀ q0, secondImage.pk = some q0 →
        ([toImageRow soloImage 1].map fun r => r.pk).Nodup →
        toImageRow secondImage q0 ∈ [toImageRow soloImage 1] →
        secondImage.isPrimary = true →
        (∀ r ∈ [toImageRow soloImage 1], r.carId = secondImage.carId →
          r.isPrimary = true → r.pk = q0) →
        S2 = [toImageRow soloImage 1] ∧ img2 = secondImage) ∧
      (∀ ops : List CarImageInst, atMostOnePrimary (saveImagesAll ops)) :=
  carimage_single_primary [toImageRow soloImage 1] secondImage rfl

end Avtofamily

